import Mathlib

/-!
Verification development for the benchmark episode driver
(`src/client/task.py`): the `TaskClient` interaction loop (`run_sample`),
its action normalizer (`_normalize_tool_payload`), transcript aggregator
(`_add_messages`), and the concurrency prober (`get_concurrency`).

Modelling conventions:
* Parsed JSON values (Python objects produced by `json.loads` /
  `response.json()`) are modelled by the inductive type `Json` below.
  Python `None` is identified with JSON `null`.  Python dicts are
  association lists with unique keys (JSON parsing never produces
  duplicate keys); lookup is first-occurrence.
* Machine-level string minutiae that no claim depends on (Python's
  `ensure_ascii` unicode escaping, `repr` quoting of exotic characters)
  are simplified in the serializers, which otherwise follow
  `json.dumps` (separators `", "` and `": "`, optional `sort_keys`).
* Remote calls (`requests.post`/`get`) and the agent backend are
  oracles: a `World` maps the index of each successive call to its
  outcome.  `_first_json_obj` (a JSON text parser) is kept abstract as
  the oracle field `firstJson`.
* An uncaught Python exception (e.g. `.get` on a non-dict) is modelled
  explicitly as a `crashed` outcome so that the embedding stays total
  and faithful on ill-formed data.
-/

inductive Json where
  | null : Json
  | bool : Bool → Json
  | num : Int → Json
  | str : String → Json
  | arr : List Json → Json
  | obj : List (String × Json) → Json

mutual

def Json.decEq : (a b : Json) → Decidable (a = b)
  | .null, .null => .isTrue rfl
  | .bool x, .bool y =>
    if h : x = y then .isTrue (by rw [h]) else .isFalse (by intro e; cases e; exact h rfl)
  | .num x, .num y =>
    if h : x = y then .isTrue (by rw [h]) else .isFalse (by intro e; cases e; exact h rfl)
  | .str x, .str y =>
    if h : x = y then .isTrue (by rw [h]) else .isFalse (by intro e; cases e; exact h rfl)
  | .arr xs, .arr ys =>
    match Json.decEqList xs ys with
    | .isTrue h => .isTrue (by rw [h])
    | .isFalse h => .isFalse (by intro e; cases e; exact h rfl)
  | .obj fs, .obj gs =>
    match Json.decEqFields fs gs with
    | .isTrue h => .isTrue (by rw [h])
    | .isFalse h => .isFalse (by intro e; cases e; exact h rfl)
  | .null, .bool _ => .isFalse (fun h => Json.noConfusion h)
  | .null, .num _ => .isFalse (fun h => Json.noConfusion h)
  | .null, .str _ => .isFalse (fun h => Json.noConfusion h)
  | .null, .arr _ => .isFalse (fun h => Json.noConfusion h)
  | .null, .obj _ => .isFalse (fun h => Json.noConfusion h)
  | .bool _, .null => .isFalse (fun h => Json.noConfusion h)
  | .bool _, .num _ => .isFalse (fun h => Json.noConfusion h)
  | .bool _, .str _ => .isFalse (fun h => Json.noConfusion h)
  | .bool _, .arr _ => .isFalse (fun h => Json.noConfusion h)
  | .bool _, .obj _ => .isFalse (fun h => Json.noConfusion h)
  | .num _, .null => .isFalse (fun h => Json.noConfusion h)
  | .num _, .bool _ => .isFalse (fun h => Json.noConfusion h)
  | .num _, .str _ => .isFalse (fun h => Json.noConfusion h)
  | .num _, .arr _ => .isFalse (fun h => Json.noConfusion h)
  | .num _, .obj _ => .isFalse (fun h => Json.noConfusion h)
  | .str _, .null => .isFalse (fun h => Json.noConfusion h)
  | .str _, .bool _ => .isFalse (fun h => Json.noConfusion h)
  | .str _, .num _ => .isFalse (fun h => Json.noConfusion h)
  | .str _, .arr _ => .isFalse (fun h => Json.noConfusion h)
  | .str _, .obj _ => .isFalse (fun h => Json.noConfusion h)
  | .arr _, .null => .isFalse (fun h => Json.noConfusion h)
  | .arr _, .bool _ => .isFalse (fun h => Json.noConfusion h)
  | .arr _, .num _ => .isFalse (fun h => Json.noConfusion h)
  | .arr _, .str _ => .isFalse (fun h => Json.noConfusion h)
  | .arr _, .obj _ => .isFalse (fun h => Json.noConfusion h)
  | .obj _, .null => .isFalse (fun h => Json.noConfusion h)
  | .obj _, .bool _ => .isFalse (fun h => Json.noConfusion h)
  | .obj _, .num _ => .isFalse (fun h => Json.noConfusion h)
  | .obj _, .str _ => .isFalse (fun h => Json.noConfusion h)
  | .obj _, .arr _ => .isFalse (fun h => Json.noConfusion h)

def Json.decEqList : (xs ys : List Json) → Decidable (xs = ys)
  | [], [] => .isTrue rfl
  | x :: xs, y :: ys =>
    match Json.decEq x y with
    | .isTrue h1 =>
      match Json.decEqList xs ys with
      | .isTrue h2 => .isTrue (by rw [h1, h2])
      | .isFalse h2 => .isFalse (by intro e; injection e with e1 e2; exact h2 e2)
    | .isFalse h1 => .isFalse (by intro e; injection e with e1 e2; exact h1 e1)
  | [], _ :: _ => .isFalse (fun h => List.noConfusion h)
  | _ :: _, [] => .isFalse (fun h => List.noConfusion h)

def Json.decEqFields : (xs ys : List (String × Json)) → Decidable (xs = ys)
  | [], [] => .isTrue rfl
  | (k, v) :: xs, (k2, v2) :: ys =>
    if hk : k = k2 then
      match Json.decEq v v2 with
      | .isTrue h1 =>
        match Json.decEqFields xs ys with
        | .isTrue h2 => .isTrue (by rw [hk, h1, h2])
        | .isFalse h2 => .isFalse (by intro e; injection e with e1 e2; exact h2 e2)
      | .isFalse h1 => .isFalse (by
          intro e; injection e with e1 e2
          exact h1 (congrArg Prod.snd e1))
    else .isFalse (by
      intro e; injection e with e1 e2
      exact hk (congrArg Prod.fst e1))
  | [], _ :: _ => .isFalse (fun h => List.noConfusion h)
  | _ :: _, [] => .isFalse (fun h => List.noConfusion h)

end

instance : DecidableEq Json := Json.decEq

/-- Python truthiness of a parsed-JSON value (`if x:`). -/
def Json.falsy : Json → Bool
  | .null => true
  | .bool b => !b
  | .num n => n = 0
  | .str s => s = ""
  | .arr xs => xs.isEmpty
  | .obj fs => fs.isEmpty

def Json.truthy (j : Json) : Bool := !j.falsy

def Json.isObjB : Json → Bool
  | .obj _ => true
  | _ => false

/-- First-occurrence lookup in a dict's field list (`d[k]` / key test). -/
def jget : List (String × Json) → String → Option Json
  | [], _ => none
  | (k, v) :: fs, key => if k = key then some v else jget fs key

/-- Python `d.get(k)`: `None` (here: `none`) both when the key is absent
and when its value is JSON `null`. -/
def pyGet (fs : List (String × Json)) (key : String) : Option Json :=
  match jget fs key with
  | some .null => none
  | o => o

/-- Python `d.get(k)` with the value `None` represented as `Json.null`. -/
def dget (fs : List (String × Json)) (key : String) : Json :=
  (jget fs key).getD .null

/-- Python `k in d`. -/
def hasKey (fs : List (String × Json)) (key : String) : Bool :=
  (jget fs key).isSome

/-- Python `d[k] = v`: replace in place if present, else append. -/
def jset : List (String × Json) → String → Json → List (String × Json)
  | [], key, v => [(key, v)]
  | (k, w) :: fs, key, v =>
    if k = key then (k, v) :: fs else (k, w) :: jset fs key v

/-- Python `d.pop(k)`, the removal part (first occurrence). -/
def jerase : List (String × Json) → String → List (String × Json)
  | [], _ => []
  | (k, w) :: fs, key => if k = key then fs else (k, w) :: jerase fs key

/-- ASCII uppercase of a string (Python `.upper()`; the claims only
exercise ASCII data). -/
def strUpper (s : String) : String := String.mk (s.data.map Char.toUpper)

/-- ASCII lowercase of a string (Python `.lower()`). -/
def strLower (s : String) : String := String.mk (s.data.map Char.toLower)

def trimLeftChars : List Char → List Char
  | [] => []
  | c :: cs => if c.isWhitespace then trimLeftChars cs else c :: cs

/-- Python `.lstrip()` (ASCII whitespace). -/
def strTrimLeft (s : String) : String := String.mk (trimLeftChars s.data)

/-- Python `.strip()` (ASCII whitespace). -/
def strTrim (s : String) : String :=
  String.mk ((trimLeftChars ((trimLeftChars s.data).reverse)).reverse)

/-- Python `s.startswith(p)`. -/
def strStarts (s p : String) : Bool := p.data.isPrefixOf s.data

def splitOnCharAux (sep : Char) : List Char → List Char → List (List Char)
  | [], acc => [acc.reverse]
  | c :: cs, acc =>
    if c = sep then acc.reverse :: splitOnCharAux sep cs []
    else splitOnCharAux sep cs (c :: acc)

/-- Python `s.split("|")` (single-character separator). -/
def splitPipe (s : String) : List String :=
  (splitOnCharAux '|' s.data []).map String.mk

def charListLe : List Char → List Char → Bool
  | [], _ => true
  | _ :: _, [] => false
  | a :: as, b :: bs => if a = b then charListLe as bs else decide (a < b)

/-- Lexicographic key order used by `sort_keys=True`. -/
def keyLe (a b : String) : Bool := charListLe a.data b.data

def insertByKey (p : String × Json) : List (String × Json) → List (String × Json)
  | [] => [p]
  | q :: qs => if keyLe p.1 q.1 then p :: q :: qs else q :: insertByKey p qs

/-- Stable-enough deterministic key sort (parsed JSON dicts never carry
duplicate keys, so any order-correct sort matches Python's). -/
def sortFields : List (String × Json) → List (String × Json)
  | [] => []
  | p :: ps => insertByKey p (sortFields ps)

/-- Escaping for `json.dumps` (quote and backslash; control characters
and the `ensure_ascii` unicode escapes are not needed by any claim). -/
def jsonEscape (s : String) : String :=
  s.data.foldl (fun acc c =>
    acc ++ (if c = '\\' then "\\\\" else if c = '"' then "\\\"" else String.singleton c)) ""

mutual

/-- `json.dumps(x)` with the default separators `", "` and `": "`. -/
def Json.dumps : Json → String
  | .null => "null"
  | .bool true => "true"
  | .bool false => "false"
  | .num n => toString n
  | .str s => "\"" ++ jsonEscape s ++ "\""
  | .arr xs => "[" ++ Json.dumpsList xs ++ "]"
  | .obj fs => "\x7b" ++ Json.dumpsFields fs ++ "\x7d"

def Json.dumpsList : List Json → String
  | [] => ""
  | [x] => Json.dumps x
  | x :: y :: xs => Json.dumps x ++ ", " ++ Json.dumpsList (y :: xs)

def Json.dumpsFields : List (String × Json) → String
  | [] => ""
  | [(k, v)] => "\"" ++ jsonEscape k ++ "\": " ++ Json.dumps v
  | (k, v) :: p :: xs =>
    "\"" ++ jsonEscape k ++ "\": " ++ Json.dumps v ++ ", " ++ Json.dumpsFields (p :: xs)

end

mutual

/-- Recursively sort all object keys, as `json.dumps(..., sort_keys=True)`
serializes them. -/
def Json.sortKeys : Json → Json
  | .null => .null
  | .bool b => .bool b
  | .num n => .num n
  | .str s => .str s
  | .arr xs => .arr (Json.sortKeysList xs)
  | .obj fs => .obj (sortFields (Json.sortKeysFields fs))

def Json.sortKeysList : List Json → List Json
  | [] => []
  | x :: xs => Json.sortKeys x :: Json.sortKeysList xs

def Json.sortKeysFields : List (String × Json) → List (String × Json)
  | [] => []
  | (k, v) :: fs => (k, Json.sortKeys v) :: Json.sortKeysFields fs

end

/-- `json.dumps(m, sort_keys=True, ensure_ascii=False)` — the canonical
dedup key used by `_add_messages`. -/
def Json.dumpsSorted (j : Json) : String :=
  (Json.sortKeys j).dumps

mutual

/-- Python `repr` of a parsed-JSON value (quoting of exotic characters
inside strings is not modelled; no claim depends on it). -/
def pyRepr : Json → String
  | .null => "None"
  | .bool true => "True"
  | .bool false => "False"
  | .num n => toString n
  | .str s => "'" ++ s ++ "'"
  | .arr xs => "[" ++ pyReprList xs ++ "]"
  | .obj fs => "\x7b" ++ pyReprFields fs ++ "\x7d"

def pyReprList : List Json → String
  | [] => ""
  | [x] => pyRepr x
  | x :: y :: xs => pyRepr x ++ ", " ++ pyReprList (y :: xs)

def pyReprFields : List (String × Json) → String
  | [] => ""
  | [(k, v)] => "'" ++ k ++ "': " ++ pyRepr v
  | (k, v) :: p :: xs => "'" ++ k ++ "': " ++ pyRepr v ++ ", " ++ pyReprFields (p :: xs)

end

/-- Python `str` of a parsed-JSON value (as interpolated by an f-string). -/
def pyStr : Json → String
  | .str s => s
  | j => pyRepr j

/-- Substring test on character lists. -/
def subListB (n : List Char) : List Char → Bool
  | [] => n.isEmpty
  | c :: t => n.isPrefixOf (c :: t) || subListB n t

/-- Python `needle in hay` for strings. -/
def containsSub (needle hay : String) : Bool :=
  subListB needle.toList hay.toList

/-- `_is_session_not_found` (task.py line 112): the phrase
`"session not found"` occurs in the lowercased response body. -/
def sessionNotFound (text : String) : Bool :=
  containsSub "session not found" (strLower text)

/-- The mutating SQL keywords of `_normalize_tool_payload` (task.py
line 344): `q.lstrip().upper().startswith((...))`. -/
def mutatingKeywords : List String :=
  ["UPDATE", "INSERT", "DELETE", "CREATE", "DROP", "ALTER", "REPLACE", "TRUNCATE"]

def mutatingStart (q : String) : Bool :=
  mutatingKeywords.any (fun k => strStarts (strUpper (strTrimLeft q)) k)

/-- `should_auto_commit` computation (task.py lines 339-347):
`arguments.get("query", "")` defaults to `""` only when the key is
absent; a non-string value (including `null`) is not a string and the
flag stays `false`. -/
def mutatingQ (args : List (String × Json)) : Bool :=
  match jget args "query" with
  | none => mutatingStart ""
  | some (.str s) => mutatingStart s
  | some _ => false

def shouldAutoCommit (name : String) (args : List (String × Json)) : Bool :=
  name == "execute_sql" && mutatingQ args

/-- The `query` alias chain for an absent `arguments` (task.py lines
299-305): `query`, `sql`, `answer`, strings only, in that order. -/
def aliasArgsSql (fs : List (String × Json)) : List (String × Json) :=
  match pyGet fs "query" with
  | some (.str q) => [("query", Json.str q)]
  | _ =>
    match pyGet fs "sql" with
    | some (.str q) => [("query", Json.str q)]
    | _ =>
      match pyGet fs "answer" with
      | some (.str q) => [("query", Json.str q)]
      | _ => []

/-- The `answers` alias chain for an absent `arguments` (task.py lines
307-312): `answers` as-is, else `answer` wrapped unless already a
list. -/
def aliasArgsAnswers (fs : List (String × Json)) : List (String × Json) :=
  if hasKey fs "answers" then [("answers", dget fs "answers")]
  else if hasKey fs "answer" then
    [("answers", match dget fs "answer" with
      | .arr l => Json.arr l
      | v => Json.arr [Json.str (pyStr v)])]
  else []

/-- Alias recovery when `arguments` is absent (task.py lines 296-312),
keyed on the resolved name. -/
def aliasArgs (fs : List (String × Json)) (nameJ : Option Json) :
    List (String × Json) :=
  (if nameJ = some (Json.str "execute_sql") then aliasArgsSql fs else [])
    ++ (if nameJ = some (Json.str "commit_final_answer") then aliasArgsAnswers fs else [])

/-- `|`-delimited candidate resolution (task.py lines 317-322): first
stripped nonempty part that is a known tool name, else the name is kept. -/
def pipeResolve (tns : List Json) (s : String) : String :=
  let parts := ((splitPipe s).map strTrim).filter (fun p => p ≠ "")
  match parts.find? (fun p => decide (Json.str p ∈ tns)) with
  | some p => p
  | none => s

/-- `arguments` coercion (task.py line 324): non-dict becomes `{}`. -/
def coerceArgs : Json → List (String × Json)
  | .obj l => l
  | _ => []

/-- `sql` → `query` rename (task.py lines 327-328). -/
def sqlRenameStep (s : String) (args : List (String × Json)) :
    List (String × Json) :=
  if s == "execute_sql" && !hasKey args "query" && hasKey args "sql" then
    jerase args "sql" ++ [("query", (jget args "sql").getD .null)]
  else args

/-- Unknown-name redirection (task.py lines 330-334). -/
def redirectStep (tns : List Json) (s : String) (args : List (String × Json)) :
    String :=
  if !tns.isEmpty && !(decide (Json.str s ∈ tns)) then
    if decide (Json.str "execute_sql" ∈ tns)
        && (match jget args "query" with | some (.str _) => true | _ => false) then
      "execute_sql"
    else if decide (Json.str "commit_final_answer" ∈ tns) then
      "commit_final_answer"
    else s
  else s

/-- Default empty answer (task.py lines 336-337). -/
def answersDefaultStep (s : String) (args : List (String × Json)) :
    List (String × Json) :=
  if s == "commit_final_answer" && !hasKey args "answers" then
    args ++ [("answers", Json.arr [Json.str ""])]
  else args

/-- Core of `_normalize_tool_payload` (task.py lines 285-349):
`(name, arguments, thought)`, or `none` for "no normalization
possible".  Steps in source order: `tool` alias for `name`; alias
recovery when `arguments` is absent/null; name validation; `|`
resolution; non-dict arguments coercion; `sql` rename; registry
redirection; default `answers`. -/
def normalizeCore (tns : List Json) (fs : List (String × Json)) :
    Option (String × List (String × Json) × Json) :=
  let nameJ : Option Json :=
    match pyGet fs "name" with
    | some v => some v
    | none =>
      match pyGet fs "tool" with
      | some (.str t) => some (Json.str t)
      | _ => none
  let argsJ : Json :=
    match pyGet fs "arguments" with
    | some a => a
    | none => Json.obj (aliasArgs fs nameJ)
  let thought : Json :=
    match jget fs "thought" with
    | some v => v
    | none => Json.str ""
  match nameJ with
  | some (.str s) =>
    if s = "" then none
    else
      let s1 := if s.data.contains '|' && !tns.isEmpty then pipeResolve tns s else s
      let args0 := coerceArgs argsJ
      let args1 := sqlRenameStep s1 args0
      let s2 := redirectStep tns s1 args1
      let args2 := answersDefaultStep s2 args1
      some (s2, args2, thought)
  | _ => none

structure NormResult where
  name : String
  args : List (String × Json)
  thought : Json
  autoCommit : Bool
deriving DecidableEq

/-- `_normalize_tool_payload` on an arbitrary parsed value: non-dict
input yields `none`. -/
def normalizeToolPayload (tns : List Json) (j : Json) : Option NormResult :=
  match j with
  | .obj fs =>
    (normalizeCore tns fs).map
      (fun p => ⟨p.1, p.2.1, p.2.2, shouldAutoCommit p.1 p.2.1⟩)
  | _ => none

/-- Composition with `_first_json_obj`'s result. -/
def normalizeOpt (tns : List Json) : Option Json → Option NormResult
  | none => none
  | some j => normalizeToolPayload tns j

/-- The transcript aggregator state: `conversation_messages` plus the
`_seen_messages` key set (task.py lines 118-132; a Python set is used
only through membership, so a list of keys is a faithful model). -/
structure Transcript where
  msgs : List Json
  seen : List String
deriving DecidableEq

def Transcript.addOne (t : Transcript) (m : Json) : Transcript :=
  let key := Json.dumpsSorted m
  if key ∈ t.seen then t else ⟨t.msgs ++ [m], t.seen ++ [key]⟩

def Transcript.addMany (t : Transcript) (ms : List Json) : Transcript :=
  ms.foldl Transcript.addOne t

/-- `_add_messages` applied to the raw value of a `messages` field:
falsy values are skipped, a list is iterated, a string iterates its
characters, a dict iterates its keys, and any other truthy value makes
the Python `for` raise (`none` = crash). -/
def Transcript.addField (t : Transcript) (v : Json) : Option Transcript :=
  if v.falsy then some t
  else
    match v with
    | .arr xs => some (t.addMany xs)
    | .str s => some (t.addMany (s.toList.map (fun c => Json.str (String.singleton c))))
    | .obj fs => some (t.addMany (fs.map (fun p => Json.str p.1)))
    | _ => none

/-- `TaskError` (task.py lines 11-16). -/
inductive TaskError where
  | START_FAILED
  | INTERACT_FAILED
  | AGENT_FAILED
  | NETWORK_ERROR
  | NOT_AVAILABLE
deriving DecidableEq

/-- Modelled from the spec: `SampleStatus` lives in `src.typings`, which
is not under `src/`.  The spec names `running`, `completed`, further
controller-defined terminal values, and an `unknown` fallback; the
named members are modelled. -/
inductive SampleStatusM where
  | running
  | completed
  | unknown
deriving DecidableEq

/-- Modelled from the spec: the enum constructor `SampleStatus(s)`,
succeeding exactly on the modelled member values. -/
def parseSampleStatus (s : String) : Option SampleStatusM :=
  if s = "running" then some .running
  else if s = "completed" then some .completed
  else if s = "unknown" then some .unknown
  else none

inductive HistRole where
  | user
  | agent
deriving DecidableEq

/-- `ChatHistoryItem` as built by `_build_output_history`. -/
structure HistItem where
  role : HistRole
  content : String
deriving DecidableEq

/-- `TaskOutput(index, status, result, history)`. -/
structure TaskOutputM where
  index : Nat
  status : SampleStatusM
  result : Json
  history : List HistItem
deriving DecidableEq

/-- A success payload: either a constructed `TaskOutput`, or the raw
legacy `result["output"]` value passed through unchanged. -/
inductive FinalOutput where
  | typed (t : TaskOutputM)
  | raw (j : Json)
deriving DecidableEq

/-- The `TaskClientOutput` result of `run_sample`, plus the two
modelling-only outcomes: `crashed` (an uncaught Python exception
escapes `run_sample`) and `diverged` (the unbounded legacy `while`
loop has not returned within the modelled fuel). -/
inductive RunOutcome where
  | ok (out : FinalOutput)
  | err (e : TaskError) (info : String) (out : Option Json)
  | crashed
  | diverged
deriving DecidableEq

/-- `_build_output_history` (task.py lines 159-170): keep messages with
string content, mapping role `assistant` to `agent` and keeping `user`;
everything else is skipped.  All messages must be dicts (enforced by
the caller via the crash check). -/
def buildHistory (conv : List Json) : List HistItem :=
  conv.foldl (fun acc m =>
    match m with
    | .obj fs =>
      match jget fs "content" with
      | some (.str c) =>
        match dget fs "role" with
        | .str "assistant" => acc ++ [⟨.agent, c⟩]
        | .str "user" => acc ++ [⟨.user, c⟩]
        | _ => acc
      | _ => acc
    | _ => acc) []

/-- `SampleStatus(status)` wrapped in `try/except` falling back to
`UNKNOWN` (task.py lines 181-198). -/
def statusToSample (v : Json) : SampleStatusM :=
  match v with
  | .str s => (parseSampleStatus s).getD .unknown
  | _ => .unknown

inductive MF where
  | crash
  | fin (f : FinalOutput)
  | nofin
deriving DecidableEq

/-- `_maybe_finish` (task.py lines 172-216): a truthy non-`"running"`
status, a `finish` flag that is literally `True`, or an embedded legacy
`output` key end the episode; the first two rebuild the result with the
full transcript and a derived history (crashing on non-dict transcript
entries), the third passes `res["output"]` through raw. -/
def maybeFinish (res : Json) (conv : List Json) (index : Nat) : MF :=
  match res with
  | .obj fs =>
    let status := dget fs "status"
    if status.truthy && !(status == Json.str "running") then
      if conv.any (fun m => !m.isObjB) then .crash
      else
        .fin (.typed ⟨index, statusToSample status,
          .obj (jset fs "messages" (.arr conv)), buildHistory conv⟩)
    else if dget fs "finish" == Json.bool true then
      if conv.any (fun m => !m.isObjB) then .crash
      else
        .fin (.typed ⟨index, .completed,
          .obj (jset fs "messages" (.arr conv)), buildHistory conv⟩)
    else if hasKey fs "output" then .fin (.raw (dget fs "output"))
    else .nofin
  | _ => .nofin

/-- Outcome of one `agent.inference` call: content, the context-limit
signal (`AgentContextLimitException`), or any other exception. -/
inductive AgentResult where
  | okA (content : String)
  | ctxLimit
  | errA (e : String)

/-- Outcome of one `requests.post(... /interact ...)` call: a 200
response with parsed JSON body, a non-200 response with its text, or a
network-level exception. -/
inductive InteractResult where
  | ok (payload : Json)
  | httpErr (body : String)
  | netErr (e : String)

/-- The environment of one episode: the i-th agent inference call, the
i-th interact call, and the abstracted `_first_json_obj` text parser. -/
structure World where
  agent : Nat → AgentResult
  interact : Nat → InteractResult
  firstJson : String → Option Json

/-- The mutable state captured by `run_sample`'s closures, threaded
explicitly, plus observability counters (`cancels` counts `_cancel()`
calls; `sent` records each batch submitted to `/interact`; `agentIdx`
and `interactIdx` count oracle calls consumed). -/
structure LoopState where
  transcript : Transcript
  fcTools : List Json
  toolNames : List Json
  autoCommitNext : Bool
  latest : Json
  agentIdx : Nat
  interactIdx : Nat
  cancels : Nat
  sent : List (List Json)
deriving DecidableEq

def bumpCancel (st : LoopState) : LoopState :=
  { st with cancels := st.cancels + 1 }

/-- Per-entry processing of `_update_tools` and the prompt builder:
`fn = (t or {}).get("function") or {}` crashes on a truthy non-dict. -/
def toolEntryCrash (t : Json) : Bool :=
  if t.falsy then false
  else
    match t with
    | .obj tfs =>
      let fnv := dget tfs "function"
      if fnv.falsy then false
      else
        match fnv with
        | .obj _ => false
        | _ => true
    | _ => true

/-- The `fn.get("name")` value of a tool entry (assuming no crash). -/
def toolEntryName (t : Json) : Json :=
  if t.falsy then .null
  else
    match t with
    | .obj tfs =>
      let fnv := dget tfs "function"
      if fnv.falsy then .null
      else
        match fnv with
        | .obj ffs => dget ffs "name"
        | _ => .null
    | _ => .null

/-- The truthy names collected by `_update_tools` (and by the prompt
builder's `tool_names`). -/
def toolNamesOf (ts : List Json) : List Json :=
  (ts.map toolEntryName).filter (fun n => n.truthy)

/-- `_update_tools` (task.py lines 140-155): absent/null or non-list
`tools` leaves the registry unchanged; a list replaces it wholesale
(`none` = crash while scanning the entries). -/
def updateToolsSt (st : LoopState) (p : Json) : Option LoopState :=
  match p with
  | .obj fs =>
    match pyGet fs "tools" with
    | none => some st
    | some (.arr ts) =>
      if ts.any toolEntryCrash then none
      else some { st with fcTools := ts, toolNames := toolNamesOf ts }
    | some _ => some st
  | _ => some st

/-- `_add_messages(result.get("messages", []))` guarded by
`isinstance(result, dict)` (task.py lines 134-135, 547-548). -/
def addPayloadMsgs (st : LoopState) (p : Json) : Option LoopState :=
  match p with
  | .obj fs =>
    match (st.transcript.addField ((jget fs "messages").getD (.arr []))) with
    | none => none
    | some t => some { st with transcript := t }
  | _ => some st

/-- Crash condition of the FC prompt builder (task.py lines 402-451):
a truthy non-dict in the tool walk, a truthy non-string collected name
(`"|".join` raises), or a non-dict transcript entry (`m.get` raises). -/
def promptBuildCrash (tools : List Json) (conv : List Json) : Bool :=
  tools.any toolEntryCrash
  || (toolNamesOf tools).any (fun n =>
        match n with
        | .str _ => false
        | _ => true)
  || conv.any (fun m => !m.isObjB)

/-- The assistant message carrying a normalized tool call (task.py
lines 470-479, 520-522): content is the thought when it is a string,
else `""`; arguments are re-serialized with `json.dumps`. -/
def mkToolCallMsg (r : NormResult) : Json :=
  Json.obj [("role", Json.str "assistant"),
    ("content", Json.str (match r.thought with | .str s => s | _ => "")),
    ("tool_calls", Json.arr [Json.obj [("id", Json.str "call_1"),
      ("type", Json.str "function"),
      ("function", Json.obj [("name", Json.str r.name),
        ("arguments", Json.str (Json.dumps (Json.obj r.args)))])]])]

/-- The synthesized `commit_final_answer` message with the default empty
answer, used both by the auto-commit branch (task.py lines 355-368) and
by the double-parse-failure fallback (lines 507-518). -/
def commitMsg : Json :=
  Json.obj [("role", Json.str "assistant"),
    ("content", Json.str ""),
    ("tool_calls", Json.arr [Json.obj [("id", Json.str "call_1"),
      ("type", Json.str "function"),
      ("function", Json.obj [("name", Json.str "commit_final_answer"),
        ("arguments", Json.str (Json.dumps (Json.obj [("answers", Json.arr [Json.str ""])])))])]])]

/-- The assistant message when normalization failed twice and no
fallback tool exists: the raw first agent content, no tool calls
(task.py lines 462-463, 520-523). -/
def rawAssistantMsg (c : String) : Json :=
  Json.obj [("role", Json.str "assistant"), ("content", Json.str c)]

inductive AgentPhase where
  | failA (info : String)
  | msgA (m : Json) (auto : Bool) (used : Nat)

/-- The retry parse: a second inference call whose exceptions are
swallowed by the surrounding `try` (task.py lines 491-505). -/
def retryParse (w : World) (tns : List Json) (aIdx : Nat) : Option NormResult :=
  match w.agent (aIdx + 1) with
  | .okA c2 => normalizeOpt tns (w.firstJson c2)
  | _ => none

/-- The agent-facing phase of one FC turn (task.py lines 453-523):
primary inference (context-limit or error returns `AgentFailed` at
once); on normalization failure one corrective retry; on a second
failure the `commit_final_answer` fallback when registered, else the
raw content without tool calls.  `used` is the number of inference
calls consumed. -/
def agentPhase (w : World) (tns : List Json) (aIdx : Nat) : AgentPhase :=
  match w.agent aIdx with
  | .ctxLimit => .failA "Agent context limit"
  | .errA e => .failA e
  | .okA c =>
    match normalizeOpt tns (w.firstJson c) with
    | some r => .msgA (mkToolCallMsg r) r.autoCommit 1
    | none =>
      match retryParse w tns aIdx with
      | some r => .msgA (mkToolCallMsg r) r.autoCommit 2
      | none =>
        if decide (Json.str "commit_final_answer" ∈ tns) then .msgA commitMsg false 2
        else .msgA (rawAssistantMsg c) false 2

inductive TurnRes where
  | done (o : RunOutcome) (st : LoopState)
  | next (st : LoopState)
deriving DecidableEq

def TurnRes.state : TurnRes → LoopState
  | .done _ st => st
  | .next st => st

def TurnRes.isNextB : TurnRes → Bool
  | .next _ => true
  | _ => false

def TurnRes.agentFailedB : TurnRes → Bool
  | .done (.err .AGENT_FAILED _ _) _ => true
  | _ => false

/-- Sending one assistant message batch and folding the reply (task.py
lines 370-399 and 524-553, identical in both branches): append to the
transcript, post to `/interact`; a network error cancels and returns
`NETWORK_ERROR`; a non-200 cancels unless the body names a missing
session, then consults `_maybe_finish(latest_result)` before returning
`INTERACT_FAILED` with the raw body; a 200 updates `latest_result`,
folds the reply messages, refreshes the registry and checks
`_maybe_finish` on the reply. -/
def sendAndFold (w : World) (index : Nat) (st0 : LoopState) (msg : Json) : TurnRes :=
  let st1 := { st0 with transcript := st0.transcript.addMany [msg] }
  let k := st1.interactIdx
  let st2 := { st1 with sent := st1.sent ++ [[msg]], interactIdx := k + 1 }
  match w.interact k with
  | .netErr e => .done (.err .NETWORK_ERROR e none) (bumpCancel st2)
  | .httpErr body =>
    let st3 := if sessionNotFound body then st2 else bumpCancel st2
    match maybeFinish st3.latest st3.transcript.msgs index with
    | .crash => .done .crashed st3
    | .fin f => .done (.ok f) st3
    | .nofin => .done (.err .INTERACT_FAILED body none) st3
  | .ok p =>
    let st3 := { st2 with latest := p }
    match addPayloadMsgs st3 p with
    | none => .done .crashed st3
    | some st4 =>
      match updateToolsSt st4 p with
      | none => .done .crashed st4
      | some st5 =>
        match maybeFinish p st5.transcript.msgs index with
        | .crash => .done .crashed st5
        | .fin f => .done (.ok f) st5
        | .nofin => .next st5

/-- Guard of the auto-commit branch (task.py line 353). -/
def autoBranchB (st : LoopState) : Bool :=
  st.autoCommitNext && decide (Json.str "commit_final_answer" ∈ st.toolNames)

/-- One iteration of the FC `for` loop (task.py lines 352-553): the
auto-commit branch synthesizes `commit_final_answer` without consulting
the agent; otherwise the prompt is built (with its crash conditions),
the agent phase runs, and the resulting message is sent.  A mutating
normalized action sets `auto_commit_next`; the flag is never cleared by
a normal turn. -/
def runTurn (w : World) (index : Nat) (st : LoopState) : TurnRes :=
  if autoBranchB st then
    sendAndFold w index { st with autoCommitNext := false } commitMsg
  else if promptBuildCrash st.fcTools st.transcript.msgs then
    .done .crashed st
  else
    match agentPhase w st.toolNames st.agentIdx with
    | .failA info =>
      .done (.err .AGENT_FAILED info none)
        (bumpCancel { st with agentIdx := st.agentIdx + 1 })
    | .msgA m auto used =>
      sendAndFold w index
        { st with agentIdx := st.agentIdx + used,
                  autoCommitNext := st.autoCommitNext || auto } m

def maxTurns : Nat := 200

/-- The turn-budget diagnostic (task.py lines 556-560). -/
def exceededMsg (latest : Json) (n : Nat) : String :=
  "Exceeded max_turns=" ++ toString maxTurns ++ ". Last response: "
    ++ pyStr latest ++ ". Collected_messages=" ++ toString n

/-- The FC `for _ in range(max_turns)` loop; on exhaustion a final
`_cancel()` and the `INTERACT_FAILED` diagnostic naming the turn budget
and the collected transcript size (task.py lines 352, 555-560). -/
def fcLoop (w : World) (index : Nat) : Nat → LoopState → RunOutcome × LoopState
  | 0, st =>
    (.err .INTERACT_FAILED (exceededMsg st.latest st.transcript.msgs.length) none,
      bumpCancel st)
  | fuel + 1, st =>
    match runTurn w index st with
    | .done o st' => (o, st')
    | .next st' => fcLoop w index fuel st'

/-- The legacy loop condition
`SampleStatus(result["output"]["status"]) == SampleStatus.RUNNING`
(task.py line 221): `none` = uncaught KeyError/TypeError/ValueError. -/
def legacyStatusOf (res : Json) : Option SampleStatusM :=
  match res with
  | .obj fs =>
    match jget fs "output" with
    | some (.obj ofs) =>
      match jget ofs "status" with
      | some (.str s) => parseSampleStatus s
      | _ => none
    | _ => none
  | _ => none

/-- `result["output"]["history"]` exists (task.py line 223). -/
def legacyHasHistory (res : Json) : Bool :=
  match res with
  | .obj fs =>
    match jget fs "output" with
    | some (.obj ofs) => hasKey ofs "history"
    | _ => false
  | _ => false

/-- `latest_result.get("output") if isinstance(latest_result, dict) else
None` (task.py lines 232, 245, 254). -/
def latestOutputOpt (latest : Json) : Option Json :=
  match latest with
  | .obj fs => pyGet fs "output"
  | _ => none

/-- `result["output"]` (task.py line 260). -/
def legacyOutput (res : Json) : Json :=
  match res with
  | .obj fs => dget fs "output"
  | _ => .null

/-- The legacy `while` loop (task.py lines 220-260).  A context-limit
exception substitutes a status-only `AgentOutput` and the turn
proceeds; any other inference error cancels and returns `AgentFailed`.
A network failure on `/interact` returns `NETWORK_ERROR` with NO
cancel; a non-200 cancels (unless the body names a missing session) and
returns `INTERACT_FAILED`.  On a non-running status the raw
`result["output"]` is returned. -/
def legacyLoop (w : World) (index : Nat) : Nat → LoopState → RunOutcome × LoopState
  | 0, st => (.diverged, st)
  | fuel + 1, st =>
    match legacyStatusOf st.latest with
    | none => (.crashed, st)
    | some s =>
      if s ≠ .running then (.ok (.raw (legacyOutput st.latest)), st)
      else if !legacyHasHistory st.latest then (.crashed, st)
      else
        match w.agent st.agentIdx with
        | .errA e =>
          (.err .AGENT_FAILED e (latestOutputOpt st.latest),
            bumpCancel { st with agentIdx := st.agentIdx + 1 })
        | _ =>
          match w.interact st.interactIdx with
          | .netErr e =>
            (.err .NETWORK_ERROR e (latestOutputOpt st.latest),
              { st with agentIdx := st.agentIdx + 1, interactIdx := st.interactIdx + 1 })
          | .httpErr body =>
            if sessionNotFound body then
              (.err .INTERACT_FAILED body (latestOutputOpt st.latest),
                { st with agentIdx := st.agentIdx + 1, interactIdx := st.interactIdx + 1 })
            else
              (.err .INTERACT_FAILED body (latestOutputOpt st.latest),
                bumpCancel
                  { st with
                      agentIdx := st.agentIdx + 1, interactIdx := st.interactIdx + 1 })
          | .ok p =>
            legacyLoop w index fuel
              { st with
                  agentIdx := st.agentIdx + 1, latest := p,
                  interactIdx := st.interactIdx + 1 }

def LoopState.init (start : Json) : LoopState :=
  ⟨⟨[], []⟩, [], [], false, start, 0, 0, 0, []⟩

/-- Initial processing after the session id is parsed (task.py lines
99, 134-157, 218): fold the start payload's messages, install its
tools. -/
def initProcess (start : Json) : Option LoopState :=
  match addPayloadMsgs (LoopState.init start) start with
  | none => none
  | some st1 => updateToolsSt st1 start

/-- Dialect negotiation (task.py line 220): a dict start payload with
an `output` key selects the legacy path. -/
def isLegacyShape (j : Json) : Bool :=
  match j with
  | .obj fs => hasKey fs "output"
  | _ => false

/-- `run_sample` from the point where the session is started and the
start payload parsed: initial folding, dialect negotiation, then the
legacy or FC loop.  `legacyFuel` bounds only the modelled unrolling of
the unbounded legacy `while` (outcome `diverged` when it is exceeded);
the FC loop's bound of 200 turns is the code's own. -/
def runSampleFromStart (w : World) (index : Nat) (legacyFuel : Nat)
    (start : Json) : RunOutcome × LoopState :=
  match initProcess start with
  | none => (.crashed, LoopState.init start)
  | some st =>
    if isLegacyShape start then legacyLoop w index legacyFuel st
    else fcLoop w index maxTurns st

/-- Outcome of one `get_concurrency` call: network exception, or a
response with status code, raw text and (for 200) parsed JSON body. -/
inductive GCResp where
  | netErr (e : String)
  | resp (code : Nat) (text : String) (body : Json)

inductive GCResult where
  | val (n : Int)
  | raised (info : String)
  | crash
deriving DecidableEq

/-- Modelled from the spec: `WorkerStatus` lives in `src.typings`, which
is not under `src/`; the spec describes an "alive" status matched either
as the canonical enumerated value or as a case-insensitive trimmed
string.  The canonical value is modelled as the string `"ALIVE"`. -/
def canonicalAliveJson : Json := Json.str "ALIVE"

/-- The alive test of `get_concurrency` (task.py lines 52-55); `none` =
crash (`worker.get` on a non-dict). -/
def workerAlive (wk : Json) : Option Bool :=
  match wk with
  | .obj wfs =>
    let status := dget wfs "status"
    some ((status == canonicalAliveJson)
      || (match status with
          | .str s => strUpper (strTrim s) == "ALIVE"
          | _ => false))
  | _ => none

def jnumInt : Json → Option Int
  | .num n => some n
  | .bool b => some (if b then 1 else 0)
  | _ => none

/-- `worker["capacity"] - worker["current"]` (task.py line 57); `none` =
crash (missing key or non-numeric operand). -/
def workerDelta (wk : Json) : Option Int :=
  match wk with
  | .obj wfs =>
    match jget wfs "capacity", jget wfs "current" with
    | some c, some u =>
      match jnumInt c, jnumInt u with
      | some ci, some ui => some (ci - ui)
      | _, _ => none
    | _, _ => none
  | _ => none

/-- The accumulation loop of `get_concurrency` (task.py lines 49-58):
left-to-right, `capacity - current` is only read for alive workers. -/
def sumWorkers : List Json → Option Int
  | [] => some 0
  | wk :: ws =>
    match workerAlive wk with
    | none => none
    | some true =>
      match workerDelta wk with
      | none => none
      | some d =>
        match sumWorkers ws with
        | none => none
        | some rest => some (d + rest)
    | some false => sumWorkers ws

/-- `get_concurrency` (task.py lines 35-59): a connection error returns
0; a non-200 response RAISES `AgentBenchException` (modelled as
`raised` with the response text); an absent task name returns 0; else
the capacity sum over alive workers.  Non-dict bodies follow Python's
`in` semantics (`crash` where indexing would raise). -/
def getConcurrency (name : String) (r : GCResp) : GCResult :=
  match r with
  | .netErr _ => .val 0
  | .resp code text body =>
    if code ≠ 200 then .raised text
    else
      match body with
      | .obj fs =>
        match jget fs name with
        | none => .val 0
        | some (.obj tfs) =>
          match jget tfs "workers" with
          | some (.obj wfs) =>
            match sumWorkers (wfs.map Prod.snd) with
            | some n => .val n
            | none => .crash
          | _ => .crash
        | some _ => .crash
      | .arr xs => if Json.str name ∈ xs then .crash else .val 0
      | .str s => if containsSub name s then .crash else .val 0
      | _ => .crash

/-- A payload that `_maybe_finish` does not treat as terminal: falsy or
`"running"` status, no literal-`True` finish flag, no `output` key. -/
def notFinishingB (j : Json) : Bool :=
  match j with
  | .obj fs =>
    ((dget fs "status").falsy || (dget fs "status" == Json.str "running"))
      && !(dget fs "finish" == Json.bool true)
      && !(hasKey fs "output")
  | _ => true

/-- A `messages` field value that `_add_messages` folds without crashing
and that keeps every transcript entry a dict: falsy, or a list of
dicts. -/
def wfMessagesVal (v : Json) : Bool :=
  v.falsy || (match v with
    | .arr xs => xs.all Json.isObjB
    | _ => false)

/-- A tool list whose entries neither crash `_update_tools` nor poison
the prompt builder: no entry crash, and each collected name is a string
(or falsy, hence skipped). -/
def toolsWfB (ts : List Json) : Bool :=
  ts.all (fun t => !toolEntryCrash t
    && (match toolEntryName t with
        | .str _ => true
        | n => n.falsy))

/-- Well-formedness of a payload's `tools` value. -/
def wfToolsVal (v : Json) : Bool :=
  match v with
  | .arr ts => toolsWfB ts
  | _ => true

/-- A payload whose `messages` and `tools` fields are processed without
an uncaught exception (per the §6 wire shape). -/
def wfPayloadB (j : Json) : Bool :=
  match j with
  | .obj fs =>
    wfMessagesVal ((jget fs "messages").getD (.arr []))
      && wfToolsVal (dget fs "tools")
  | _ => true

/-- A well-formed FC payload that keeps the episode running: status is
the literal string `"running"`, no finish flag, no legacy `output`. -/
def runningPayloadB (j : Json) : Bool :=
  match j with
  | .obj fs =>
    (dget fs "status" == Json.str "running")
      && !(dget fs "finish" == Json.bool true)
      && !(hasKey fs "output")
      && wfPayloadB j
  | _ => false

def convWfB (conv : List Json) : Bool := conv.all Json.isObjB

/-- Loop-state well-formedness: registry and transcript are benign for
the prompt builder. -/
def stWfB (st : LoopState) : Bool :=
  toolsWfB st.fcTools && convWfB st.transcript.msgs

/-- A start payload selecting the FC dialect whose initial folding is
well-formed. -/
def startFcWfB (start : Json) : Bool :=
  wfPayloadB start && !isLegacyShape start

/-- No `answers` value is derivable from the input object: no `answers`
or `answer` key, and no `answers` inside a dict-valued `arguments`
field. -/
def noAnswersSource : Json → Bool
  | .obj fs =>
    !(hasKey fs "answers") && !(hasKey fs "answer")
      && (match jget fs "arguments" with
          | some (.obj afs) => !(hasKey afs "answers")
          | _ => true)
  | _ => true

/-- The aggregator invariant: the key of every appended message has been
recorded in the seen set (true of every state `_add_messages` ever
builds from the empty transcript). -/
def TranscriptInv (t : Transcript) : Prop :=
  ∀ m, m ∈ t.msgs → Json.dumpsSorted m ∈ t.seen

/-- A well-formed running payload used by several concrete scenarios. -/
def runningP : Json := Json.obj [("status", Json.str "running")]

/-- A tool entry advertising `name`, as the controller sends them. -/
def toolEntry (name : String) : Json :=
  Json.obj [("function", Json.obj [("name", Json.str name)])]

/-- Scenario (C2 counterexample): legacy-shaped session, network failure
on the first `/interact`. -/
def c2cw : World :=
  ⟨fun _ => .okA "x", fun _ => .netErr "down", fun _ => none⟩

def c2cstart : Json :=
  Json.obj [("output", Json.obj [("history", Json.arr []), ("status", Json.str "running")])]

/-- Scenario (C2 witness): FC session, non-200 `/interact` with an
unrelated body. -/
def c2ww : World :=
  ⟨fun _ => .okA "", fun _ => .httpErr "boom", fun _ => none⟩

def c2wstart : Json := runningP

/-- Scenario (C4 counterexample): FC session with `commit_final_answer`
registered, agent inference raises on the first call. -/
def c4cw : World :=
  ⟨fun _ => .errA "boom", fun _ => .ok runningP, fun _ => none⟩

def c4cstart : Json :=
  Json.obj [("status", Json.str "running"),
    ("tools", Json.arr [toolEntry "commit_final_answer"])]

/-- Scenario (C4 witness): context-limit on the primary call. -/
def c4wa : World :=
  ⟨fun _ => .ctxLimit, fun _ => .ok runningP, fun _ => none⟩

def c4wb : World :=
  ⟨fun _ => .errA "kaput", fun _ => .ok runningP, fun _ => none⟩

def c4wst : LoopState :=
  ⟨⟨[], []⟩, [toolEntry "commit_final_answer"], [Json.str "commit_final_answer"],
    false, runningP, 0, 0, 0, []⟩

/-- Scenario (C5): the agent issues a mutating `execute_sql` on turn 1;
only `execute_sql` is registered, so the pending auto-commit cannot
fire on turn 2 and the agent is consulted again. -/
def c5cw : World :=
  ⟨fun i => if i = 0 then .okA "M" else if i = 1 then .okA "S" else .okA "",
   fun _ => .ok runningP,
   fun s =>
     if s = "M" then
       some (Json.obj [("name", Json.str "execute_sql"),
         ("arguments", Json.obj [("query", Json.str "UPDATE t SET x=1")])])
     else if s = "S" then
       some (Json.obj [("name", Json.str "execute_sql"),
         ("arguments", Json.obj [("query", Json.str "SELECT 1")])])
     else none⟩

def c5cstart : Json :=
  Json.obj [("status", Json.str "running"),
    ("tools", Json.arr [toolEntry "execute_sql"])]

def c5init : LoopState :=
  (initProcess c5cstart).getD (LoopState.init c5cstart)

def c5s1 : LoopState := (runTurn c5cw 0 c5init).state

def c5s2 : LoopState := (runTurn c5cw 0 c5s1).state

/-- Scenario (C5 witness, part b): pending auto-commit with the tool
registered. -/
def c5bst : LoopState :=
  ⟨⟨[], []⟩, [toolEntry "commit_final_answer"], [Json.str "commit_final_answer"],
    true, runningP, 3, 1, 0, [[commitMsg]]⟩

/-- Scenario (C7 counterexample): the start payload already carries a
terminal status; the first `/interact` fails with a non-200. -/
def c7cw : World :=
  ⟨fun _ => .okA "x", fun _ => .httpErr "boom", fun _ => none⟩

def c7cstart : Json := Json.obj [("status", Json.str "completed")]

/-- Scenario (C7 witness): running start payload, non-200 on turn 1. -/
def c7ww : World :=
  ⟨fun _ => .okA "x", fun _ => .httpErr "gone wrong", fun _ => none⟩

def c7wstart : Json := runningP

/-- Scenario (C8 witness): unparseable agent output twice with
`commit_final_answer` registered. -/
def c8w : World :=
  ⟨fun _ => .okA "garbage", fun _ => .ok runningP, fun _ => none⟩

def c8st : LoopState :=
  ⟨⟨[], []⟩, [toolEntry "commit_final_answer"], [Json.str "commit_final_answer"],
    false, runningP, 0, 0, 0, []⟩

/-- Scenario (C1 witness): the controller always answers 200/running. -/
def c1w : World :=
  ⟨fun _ => .okA "", fun _ => .ok runningP, fun _ => none⟩

def c1start : Json := runningP

theorem jget_append (xs ys : List (String × Json)) (k : String) :
    jget (xs ++ ys) k = (match jget xs k with
      | some v => some v
      | none => jget ys k) := by
  induction xs with
  | nil => simp [jget]
  | cons p xs ih =>
    obtain ⟨k1, v1⟩ := p
    by_cases h : k1 = k
    · simp [jget, h]
    · simp [jget, h, ih]

theorem jget_erase_none (xs : List (String × Json)) (k' k : String)
    (h : jget xs k = none) : jget (jerase xs k') k = none := by
  induction xs with
  | nil => exact h
  | cons p xs ih =>
    obtain ⟨k1, v1⟩ := p
    simp only [jget] at h
    by_cases h1 : k1 = k
    · simp [h1] at h
    · simp only [jget, if_neg h1] at h
      by_cases h2 : k1 = k'
      · simpa [jerase, h2] using h
      · simp [jerase, h2, jget, h1, ih h]

theorem sumWorkers_eq (ws : List Json)
    (h : ∀ wk ∈ ws, (workerAlive wk).isSome
      ∧ (workerAlive wk = some true → (workerDelta wk).isSome)) :
    sumWorkers ws =
      some (((ws.filter (fun wk => workerAlive wk == some true)).map
        (fun wk => (workerDelta wk).getD 0)).sum) := by
  induction ws with
  | nil => simp [sumWorkers]
  | cons wk ws ih =>
    obtain ⟨h1, h2⟩ := h wk (List.mem_cons_self wk ws)
    have hrest := ih (fun x hx => h x (List.mem_cons_of_mem wk hx))
    match ha : workerAlive wk with
    | none => rw [ha] at h1; simp at h1
    | some true =>
      have hd := h2 ha
      match hdv : workerDelta wk with
      | none => rw [hdv] at hd; simp at hd
      | some d =>
        simp [sumWorkers, ha, hdv, hrest, List.filter_cons, List.sum_cons]
    | some false =>
      simp [sumWorkers, ha, hrest, List.filter_cons]

/-- C3 counterexample: `get_concurrency` is claimed to never fail, but a
reachable controller answering a non-200 status makes it raise
`AgentBenchException` instead of returning a value. -/
theorem C3_counterexample :
    getConcurrency "dbbench-std" (.resp 500 "boom" Json.null) = .raised "boom" := rfl

/-- C3 (amended): `get_concurrency` returns 0 on a connection error and
when the task name is absent from a 200 listing, and otherwise sums
`capacity - current` over workers whose status is the canonical alive
value or a case-insensitively matching string; however a non-200
response raises an exception (see the counterexample), so "never
fails" holds only away from that case. -/
theorem C3_concurrency (name : String) :
    (∀ e, getConcurrency name (.netErr e) = .val 0)
    ∧ (∀ t fs, jget fs name = none →
        getConcurrency name (.resp 200 t (.obj fs)) = .val 0)
    ∧ (∀ t fs tfs wfs, jget fs name = some (.obj tfs) →
        jget tfs "workers" = some (.obj wfs) →
        (∀ wk ∈ wfs.map Prod.snd, (workerAlive wk).isSome
          ∧ (workerAlive wk = some true → (workerDelta wk).isSome)) →
        getConcurrency name (.resp 200 t (.obj fs)) =
          .val ((((wfs.map Prod.snd).filter
            (fun wk => workerAlive wk == some true)).map
            (fun wk => (workerDelta wk).getD 0)).sum)) := by
  refine ⟨fun e => rfl, fun t fs h => ?_, fun t fs tfs wfs h1 h2 h3 => ?_⟩
  · simp [getConcurrency, h]
  · simp [getConcurrency, h1, h2, sumWorkers_eq _ h3]

/-- C3 witness: a concrete listing with one alive and one dead worker. -/
theorem C3_witness :
    getConcurrency "os-std" (.resp 200 ""
      (Json.obj [("os-std", Json.obj [("workers", Json.obj
        [("1", Json.obj [("status", Json.str " alive "), ("capacity", Json.num 4),
          ("current", Json.num 1)]),
         ("2", Json.obj [("status", Json.str "dead"), ("capacity", Json.num 9),
          ("current", Json.num 0)])])])])) = .val 3 := by
  have h := (C3_concurrency "os-std").2.2 ""
    [("os-std", Json.obj [("workers", Json.obj
      [("1", Json.obj [("status", Json.str " alive "), ("capacity", Json.num 4),
        ("current", Json.num 1)]),
       ("2", Json.obj [("status", Json.str "dead"), ("capacity", Json.num 9),
        ("current", Json.num 0)])])])]
    [("workers", Json.obj
      [("1", Json.obj [("status", Json.str " alive "), ("capacity", Json.num 4),
        ("current", Json.num 1)]),
       ("2", Json.obj [("status", Json.str "dead"), ("capacity", Json.num 9),
        ("current", Json.num 0)])])]
    [("1", Json.obj [("status", Json.str " alive "), ("capacity", Json.num 4),
        ("current", Json.num 1)]),
     ("2", Json.obj [("status", Json.str "dead"), ("capacity", Json.num 9),
        ("current", Json.num 0)])]
    (by decide) (by decide) (by decide)
  rw [h]; decide

theorem redirectStep_known (tns : List Json) (s : String)
    (args : List (String × Json)) (h : Json.str s ∈ tns) :
    redirectStep tns s args = s := by
  unfold redirectStep
  have hd : decide (Json.str s ∈ tns) = true := decide_eq_true h
  simp [hd]

/-- C6: the three drifted spellings of an SQL execution request
normalize to the same canonical action `(execute_sql, {query})`,
consulting the aliases `query`, `sql`, `answer` in that priority order
when `arguments` is absent.  The registry is assumed either to know
`execute_sql` or to be empty, since an unknown name would otherwise be
redirected (task.py lines 330-334). -/
theorem C6_alias_normalization (tns : List Json)
    (h : Json.str "execute_sql" ∈ tns ∨ tns = []) :
    normalizeToolPayload tns
        (Json.obj [("tool", Json.str "execute_sql"), ("query", Json.str "SELECT 1")])
      = some ⟨"execute_sql", [("query", Json.str "SELECT 1")], Json.str "", false⟩
    ∧ normalizeToolPayload tns
        (Json.obj [("name", Json.str "execute_sql"), ("sql", Json.str "SELECT 1")])
      = some ⟨"execute_sql", [("query", Json.str "SELECT 1")], Json.str "", false⟩
    ∧ normalizeToolPayload tns
        (Json.obj [("name", Json.str "execute_sql"), ("answer", Json.str "SELECT 1")])
      = some ⟨"execute_sql", [("query", Json.str "SELECT 1")], Json.str "", false⟩ := by
  rcases h with h | rfl
  · have hr := redirectStep_known tns "execute_sql" [("query", Json.str "SELECT 1")] h
    have hc : ("execute_sql".data.contains '|') = false := by decide
    refine ⟨?_, ?_, ?_⟩ <;>
      simp [normalizeToolPayload, normalizeCore, aliasArgs, aliasArgsSql,
        aliasArgsAnswers, pyGet, jget, hasKey, dget, coerceArgs, sqlRenameStep,
        answersDefaultStep, shouldAutoCommit, mutatingQ, hc, hr] <;> decide
  · decide

/-- C6 witness: the registry advertising exactly `execute_sql`. -/
theorem C6_witness :
    normalizeToolPayload [Json.str "execute_sql"]
        (Json.obj [("tool", Json.str "execute_sql"), ("query", Json.str "SELECT 1")])
      = some ⟨"execute_sql", [("query", Json.str "SELECT 1")], Json.str "", false⟩
    ∧ normalizeToolPayload [Json.str "execute_sql"]
        (Json.obj [("name", Json.str "execute_sql"), ("sql", Json.str "SELECT 1")])
      = some ⟨"execute_sql", [("query", Json.str "SELECT 1")], Json.str "", false⟩
    ∧ normalizeToolPayload [Json.str "execute_sql"]
        (Json.obj [("name", Json.str "execute_sql"), ("answer", Json.str "SELECT 1")])
      = some ⟨"execute_sql", [("query", Json.str "SELECT 1")], Json.str "", false⟩ :=
  C6_alias_normalization [Json.str "execute_sql"] (Or.inl (List.mem_singleton_self _))

/-- C9: appending a message whose canonical key equals that of an
already-appended message leaves the transcript unchanged; appends
extend the message list as a prefix (no removal, no reordering), so
length is non-decreasing; and the seen-key invariant is preserved. -/
theorem C9_transcript :
    (∀ (t : Transcript) (m m' : Json), TranscriptInv t → m' ∈ t.msgs →
      Json.dumpsSorted m = Json.dumpsSorted m' → t.addMany [m] = t)
    ∧ (∀ (t : Transcript) (ms : List Json), t.msgs <+: (t.addMany ms).msgs)
    ∧ (∀ (t : Transcript) (ms : List Json),
        t.msgs.length ≤ (t.addMany ms).msgs.length)
    ∧ (∀ (t : Transcript) (ms : List Json),
        TranscriptInv t → TranscriptInv (t.addMany ms)) := by
  have haddOne : ∀ t ms, Transcript.addMany t ms = ms.foldl Transcript.addOne t :=
    fun _ _ => rfl
  have hpre : ∀ ms t, t.msgs <+: (Transcript.addMany t ms).msgs := by
    intro ms
    induction ms with
    | nil => intro t; exact List.prefix_rfl
    | cons m ms ih =>
      intro t
      have h1 : Transcript.addMany t (m :: ms) = Transcript.addMany (t.addOne m) ms := rfl
      rw [h1]
      refine List.IsPrefix.trans ?_ (ih (t.addOne m))
      unfold Transcript.addOne
      by_cases hk : Json.dumpsSorted m ∈ t.seen
      · simp [hk]
      · simp [hk]
  have hinv : ∀ ms t, TranscriptInv t → TranscriptInv (Transcript.addMany t ms) := by
    intro ms
    induction ms with
    | nil => intro t h; exact h
    | cons m ms ih =>
      intro t h
      have h1 : Transcript.addMany t (m :: ms) = Transcript.addMany (t.addOne m) ms := rfl
      rw [h1]
      refine ih _ ?_
      unfold Transcript.addOne
      by_cases hk : Json.dumpsSorted m ∈ t.seen
      · simpa [hk] using h
      · simp only [hk, if_false]
        intro x hx
        rcases List.mem_append.mp hx with hx | hx
        · exact List.mem_append.mpr (Or.inl (h x hx))
        · rw [List.mem_singleton] at hx
          subst hx
          exact List.mem_append.mpr (Or.inr (List.mem_singleton_self _))
  refine ⟨?_, fun t ms => hpre ms t, fun t ms => (hpre ms t).length_le,
    fun t ms h => hinv ms t h⟩
  intro t m m' hI hm heq
  have hk : Json.dumpsSorted m ∈ t.seen := heq ▸ hI m' hm
  show t.addOne m = t
  unfold Transcript.addOne
  simp [hk]

/-- C9 witness: re-appending the one already-present message is a
no-op. -/
theorem C9_witness :
    (⟨[Json.obj [("role", Json.str "user"), ("content", Json.str "hi")]],
      [Json.dumpsSorted (Json.obj [("role", Json.str "user"), ("content", Json.str "hi")])]⟩
        : Transcript).addMany
      [Json.obj [("role", Json.str "user"), ("content", Json.str "hi")]]
    = ⟨[Json.obj [("role", Json.str "user"), ("content", Json.str "hi")]],
      [Json.dumpsSorted (Json.obj [("role", Json.str "user"), ("content", Json.str "hi")])]⟩ :=
  C9_transcript.1 _ _ _
    (fun m hm => by
      rw [List.mem_singleton] at hm
      subst hm
      exact List.mem_singleton_self _)
    (List.mem_singleton_self _) rfl


theorem hasKey_false_iff (fs : List (String × Json)) (k : String) :
    hasKey fs k = false ↔ jget fs k = none := by
  unfold hasKey
  cases jget fs k <;> simp

theorem hasKey_append (xs ys : List (String × Json)) (k : String) :
    hasKey (xs ++ ys) k = (hasKey xs k || hasKey ys k) := by
  unfold hasKey
  rw [jget_append]
  cases h : jget xs k <;> simp

theorem answersDefault_hasKey (args : List (String × Json)) :
    hasKey (answersDefaultStep "commit_final_answer" args) "answers" = true := by
  unfold answersDefaultStep
  cases h : hasKey args "answers" with
  | true => simp [h]
  | false =>
    simp only [beq_self_eq_true, Bool.true_and, h, Bool.not_false, if_true]
    rw [hasKey_append]
    simp [hasKey, jget]

theorem answersDefault_default (args : List (String × Json))
    (h : hasKey args "answers" = false) :
    jget (answersDefaultStep "commit_final_answer" args) "answers"
      = some (Json.arr [Json.str ""]) := by
  unfold answersDefaultStep
  simp only [beq_self_eq_true, Bool.true_and, h, Bool.not_false, if_true]
  rw [jget_append, (hasKey_false_iff args "answers").mp h]
  simp [jget]

theorem sqlRename_no_answers (s : String) (args : List (String × Json))
    (h : hasKey args "answers" = false) :
    hasKey (sqlRenameStep s args) "answers" = false := by
  unfold sqlRenameStep
  split
  · rw [hasKey_false_iff] at h ⊢
    rw [jget_append, jget_erase_none args "sql" "answers" h]
    simp [jget]
  · exact h

theorem aliasArgsSql_no_answers (fs : List (String × Json)) :
    jget (aliasArgsSql fs) "answers" = none := by
  unfold aliasArgsSql
  repeat' split
  all_goals simp [jget]

theorem aliasArgsAnswers_none (fs : List (String × Json))
    (h1 : hasKey fs "answers" = false) (h2 : hasKey fs "answer" = false) :
    aliasArgsAnswers fs = [] := by
  unfold aliasArgsAnswers
  rw [h1, h2]
  simp

theorem aliasArgs_no_answers (fs : List (String × Json)) (nameJ : Option Json)
    (h1 : hasKey fs "answers" = false) (h2 : hasKey fs "answer" = false) :
    hasKey (aliasArgs fs nameJ) "answers" = false := by
  unfold aliasArgs
  rw [hasKey_false_iff, jget_append, aliasArgsAnswers_none fs h1 h2]
  have ha1 : jget (if nameJ = some (Json.str "execute_sql") then aliasArgsSql fs else [])
      "answers" = none := by
    split
    · exact aliasArgsSql_no_answers fs
    · rfl
  rw [ha1]
  simp [jget]

theorem coerce_no_answers (fs : List (String × Json)) (nameJ : Option Json)
    (hns : noAnswersSource (.obj fs) = true) :
    hasKey (coerceArgs (match pyGet fs "arguments" with
      | some a => a
      | none => Json.obj (aliasArgs fs nameJ))) "answers" = false := by
  unfold noAnswersSource at hns
  simp only [Bool.and_eq_true, Bool.not_eq_true'] at hns
  obtain ⟨⟨h1, h2⟩, h3⟩ := hns
  cases hpg : pyGet fs "arguments" with
  | none => exact aliasArgs_no_answers fs nameJ h1 h2
  | some a =>
    cases a with
    | obj afs =>
      have : jget fs "arguments" = some (.obj afs) := by
        unfold pyGet at hpg
        cases hj : jget fs "arguments" with
        | none => rw [hj] at hpg; exact Option.noConfusion hpg
        | some v =>
          rw [hj] at hpg
          cases v <;> simp_all
      rw [this] at h3
      simpa [coerceArgs] using h3
    | null => simp [coerceArgs, hasKey, jget]
    | bool b => simp [coerceArgs, hasKey, jget]
    | num n => simp [coerceArgs, hasKey, jget]
    | str s => simp [coerceArgs, hasKey, jget]
    | arr xs => simp [coerceArgs, hasKey, jget]

theorem normalizeCore_inv (tns : List Json) (fs : List (String × Json))
    (p : String × List (String × Json) × Json) (h : normalizeCore tns fs = some p) :
    ∃ args1, p.2.1 = answersDefaultStep p.1 args1
      ∧ (noAnswersSource (.obj fs) = true → hasKey args1 "answers" = false) := by
  simp only [normalizeCore] at h
  split at h
  · split at h
    · exact Option.noConfusion h
    · injection h with h
      subst h
      refine ⟨_, rfl, fun hns => ?_⟩
      exact sqlRename_no_answers _ _ (coerce_no_answers fs _ hns)
  · exact Option.noConfusion h

/-- C10: whenever normalization succeeds with resolved name
`commit_final_answer` — given directly, via the `tool` alias, or by
registry redirection — the returned arguments always contain the key
`answers`, and it defaults to `[""]` whenever no answers value was
derivable from the input object. -/
theorem C10_commit_answers (tns : List Json) (j : Json) (r : NormResult)
    (h : normalizeToolPayload tns j = some r)
    (hn : r.name = "commit_final_answer") :
    hasKey r.args "answers" = true
    ∧ (noAnswersSource j = true →
        jget r.args "answers" = some (Json.arr [Json.str ""])) := by
  cases j with
  | obj fs =>
    simp only [normalizeToolPayload] at h
    cases hc : normalizeCore tns fs with
    | none => rw [hc] at h; exact Option.noConfusion h
    | some p =>
      rw [hc, Option.map_some'] at h
      injection h with h
      obtain ⟨args1, he, hno⟩ := normalizeCore_inv tns fs p hc
      have hr1 : r.name = p.1 := by rw [← h]
      have hr2 : r.args = p.2.1 := by rw [← h]
      rw [hr2, he, ← hr1, hn]
      exact ⟨answersDefault_hasKey args1,
        fun hns => answersDefault_default args1 (hno hns)⟩
  | null => exact Option.noConfusion h
  | bool b => exact Option.noConfusion h
  | num n => exact Option.noConfusion h
  | str s => exact Option.noConfusion h
  | arr xs => exact Option.noConfusion h

/-- C10 witness: a bare `commit_final_answer` action with no arguments
receives the default empty answer. -/
theorem C10_witness :
    hasKey (NormResult.args ⟨"commit_final_answer",
        [("answers", Json.arr [Json.str ""])], Json.str "", false⟩) "answers" = true
    ∧ (noAnswersSource (Json.obj [("name", Json.str "commit_final_answer")]) = true →
        jget (NormResult.args ⟨"commit_final_answer",
          [("answers", Json.arr [Json.str ""])], Json.str "", false⟩) "answers"
          = some (Json.arr [Json.str ""])) :=
  C10_commit_answers [] (Json.obj [("name", Json.str "commit_final_answer")])
    ⟨"commit_final_answer", [("answers", Json.arr [Json.str ""])], Json.str "", false⟩
    (by decide) rfl

theorem addPayloadMsgs_shape (st : LoopState) (p : Json) (st' : LoopState)
    (h : addPayloadMsgs st p = some st') :
    st' = { st with transcript := st'.transcript } := by
  unfold addPayloadMsgs at h
  split at h
  · split at h
    · exact Option.noConfusion h
    · injection h with h
      subst h
      rfl
  · injection h with h
    subst h
    rfl

theorem updateToolsSt_shape (st : LoopState) (p : Json) (st' : LoopState)
    (h : updateToolsSt st p = some st') :
    st' = { st with fcTools := st'.fcTools, toolNames := st'.toolNames } := by
  unfold updateToolsSt at h
  split at h
  · split at h
    · injection h with h; subst h; rfl
    · split at h
      · exact Option.noConfusion h
      · injection h with h; subst h; rfl
    · injection h with h; subst h; rfl
  · injection h with h; subst h; rfl

theorem sendAndFold_fields (w : World) (idx : Nat) (st0 : LoopState) (msg : Json) :
    (sendAndFold w idx st0 msg).state.sent = st0.sent ++ [[msg]]
    ∧ (sendAndFold w idx st0 msg).state.agentIdx = st0.agentIdx
    ∧ (sendAndFold w idx st0 msg).state.interactIdx = st0.interactIdx + 1
    ∧ (sendAndFold w idx st0 msg).agentFailedB = false := by
  simp only [sendAndFold]
  split
  · exact ⟨rfl, rfl, rfl, rfl⟩
  · split <;> split <;> exact ⟨rfl, rfl, rfl, rfl⟩
  · split
    · exact ⟨rfl, rfl, rfl, rfl⟩
    · rename_i st4 hadd
      have h4 := addPayloadMsgs_shape _ _ _ hadd
      split
      · refine ⟨?_, ?_, ?_, rfl⟩ <;> (rw [h4]; try rfl)
      · rename_i st5 hupd
        have h5 := updateToolsSt_shape _ _ _ hupd
        split <;> (refine ⟨?_, ?_, ?_, rfl⟩ <;> (rw [h5, h4]; try rfl))

theorem sendAndFold_next_shape (w : World) (idx : Nat) (st0 : LoopState)
    (msg : Json) (st' : LoopState)
    (h : sendAndFold w idx st0 msg = .next st') :
    st'.cancels = st0.cancels ∧ st'.autoCommitNext = st0.autoCommitNext := by
  simp only [sendAndFold] at h
  split at h
  · exact TurnRes.noConfusion h
  · split at h <;> exact TurnRes.noConfusion h
  · split at h
    · exact TurnRes.noConfusion h
    · rename_i st4 hadd
      have h4 := addPayloadMsgs_shape _ _ _ hadd
      split at h
      · exact TurnRes.noConfusion h
      · rename_i st5 hupd
        have h5 := updateToolsSt_shape _ _ _ hupd
        split at h
        · exact TurnRes.noConfusion h
        · exact TurnRes.noConfusion h
        · injection h with h
          subst h
          constructor <;> (rw [h5, h4]; try rfl)

theorem sendAndFold_done_cancels (w : World) (idx : Nat) (st0 : LoopState)
    (msg : Json) (o : RunOutcome) (st' : LoopState)
    (h : sendAndFold w idx st0 msg = .done o st') :
    (∀ info out, o = .err .INTERACT_FAILED info out → sessionNotFound info = false →
      st'.cancels = st0.cancels + 1)
    ∧ (∀ info out, o = .err .NETWORK_ERROR info out → st'.cancels = st0.cancels + 1) := by
  simp only [sendAndFold] at h
  split at h
  · injection h with h1 h2
    subst h1; subst h2
    refine ⟨?_, ?_⟩
    · intro info out ho
      injection ho with he
      exact absurd he (by intro hx; exact TaskError.noConfusion hx)
    · intro info out ho
      rfl
  · rename_i body hbody
    split at h
    · injection h with h1 h2
      subst h1; subst h2
      exact ⟨fun info out ho => absurd ho (by intro hx; exact RunOutcome.noConfusion hx),
        fun info out ho => absurd ho (by intro hx; exact RunOutcome.noConfusion hx)⟩
    · injection h with h1 h2
      subst h1; subst h2
      exact ⟨fun info out ho => absurd ho (by intro hx; exact RunOutcome.noConfusion hx),
        fun info out ho => absurd ho (by intro hx; exact RunOutcome.noConfusion hx)⟩
    · injection h with h1 h2
      subst h1; subst h2
      refine ⟨?_, ?_⟩
      · intro info out ho hsnf
        injection ho with he hinfo hout
        subst hinfo
        rw [hsnf]
        rfl
      · intro info out ho
        injection ho with he
        exact absurd he (by intro hx; exact TaskError.noConfusion hx)
  · split at h
    · injection h with h1 h2
      subst h1; subst h2
      exact ⟨fun info out ho => absurd ho (by intro hx; exact RunOutcome.noConfusion hx),
        fun info out ho => absurd ho (by intro hx; exact RunOutcome.noConfusion hx)⟩
    · split at h
      · injection h with h1 h2
        subst h1; subst h2
        exact ⟨fun info out ho => absurd ho (by intro hx; exact RunOutcome.noConfusion hx),
          fun info out ho => absurd ho (by intro hx; exact RunOutcome.noConfusion hx)⟩
      · split at h
        · injection h with h1 h2
          subst h1; subst h2
          exact ⟨fun info out ho => absurd ho (by intro hx; exact RunOutcome.noConfusion hx),
            fun info out ho => absurd ho (by intro hx; exact RunOutcome.noConfusion hx)⟩
        · injection h with h1 h2
          subst h1; subst h2
          exact ⟨fun info out ho => absurd ho (by intro hx; exact RunOutcome.noConfusion hx),
            fun info out ho => absurd ho (by intro hx; exact RunOutcome.noConfusion hx)⟩
        · exact TurnRes.noConfusion h

theorem runTurn_done_cancels (w : World) (idx : Nat) (st : LoopState)
    (o : RunOutcome) (st' : LoopState) (h : runTurn w idx st = .done o st') :
    (∀ info out, o = .err .INTERACT_FAILED info out → sessionNotFound info = false →
      st'.cancels = st.cancels + 1)
    ∧ (∀ info out, o = .err .NETWORK_ERROR info out → st'.cancels = st.cancels + 1) := by
  unfold runTurn at h
  split at h
  · have hs := sendAndFold_done_cancels _ _ _ _ _ _ h
    exact hs
  · split at h
    · injection h with h1 h2
      subst h1; subst h2
      exact ⟨fun info out ho => absurd ho (by intro hx; exact RunOutcome.noConfusion hx),
        fun info out ho => absurd ho (by intro hx; exact RunOutcome.noConfusion hx)⟩
    · split at h
      · injection h with h1 h2
        subst h1; subst h2
        refine ⟨?_, ?_⟩
        · intro info out ho
          injection ho with he
          exact absurd he (by intro hx; exact TaskError.noConfusion hx)
        · intro info out ho
          injection ho with he
          exact absurd he (by intro hx; exact TaskError.noConfusion hx)
      · have hs := sendAndFold_done_cancels _ _ _ _ _ _ h
        exact hs

theorem runTurn_next_cancels (w : World) (idx : Nat) (st st' : LoopState)
    (h : runTurn w idx st = .next st') : st'.cancels = st.cancels := by
  unfold runTurn at h
  split at h
  · exact (sendAndFold_next_shape _ _ _ _ _ h).1
  · split at h
    · exact TurnRes.noConfusion h
    · split at h
      · exact TurnRes.noConfusion h
      · exact (sendAndFold_next_shape _ _ _ _ _ h).1

theorem fcLoop_cancel_inv (w : World) (idx : Nat) :
    ∀ (fuel : Nat) (st : LoopState),
      (∀ info out, (fcLoop w idx fuel st).1 = .err .INTERACT_FAILED info out →
        sessionNotFound info = false →
        (fcLoop w idx fuel st).2.cancels = st.cancels + 1)
      ∧ (∀ info out, (fcLoop w idx fuel st).1 = .err .NETWORK_ERROR info out →
        (fcLoop w idx fuel st).2.cancels = st.cancels + 1) := by
  intro fuel
  induction fuel with
  | zero =>
    intro st
    refine ⟨fun info out ho hsnf => rfl, fun info out ho => ?_⟩
    injection ho with he
    exact absurd he (by intro hx; exact TaskError.noConfusion hx)
  | succ fuel ih =>
    intro st
    cases hrt : runTurn w idx st with
    | done o st' =>
      have hfc : fcLoop w idx (fuel + 1) st = (o, st') := by
        simp [fcLoop, hrt]
      rw [hfc]
      exact runTurn_done_cancels w idx st o st' hrt
    | next st' =>
      have hfc : fcLoop w idx (fuel + 1) st = fcLoop w idx fuel st' := by
        simp [fcLoop, hrt]
      rw [hfc]
      have hc := runTurn_next_cancels w idx st st' hrt
      have := ih st'
      rw [hc] at this
      exact this

theorem legacyLoop_cancel_inv (w : World) (idx : Nat) :
    ∀ (fuel : Nat) (st : LoopState) (o : RunOutcome) (st' : LoopState),
      legacyLoop w idx fuel st = (o, st') →
      ∀ info out, o = .err .INTERACT_FAILED info out →
        sessionNotFound info = false → st'.cancels = st.cancels + 1 := by
  intro fuel
  induction fuel with
  | zero =>
    intro st o st' h info out ho hsnf
    rw [legacyLoop] at h
    injection h with h1 h2
    subst h1
    exact absurd ho (by intro hx; exact RunOutcome.noConfusion hx)
  | succ fuel ih =>
    intro st o st' h info out ho hsnf
    rw [legacyLoop] at h
    split at h
    · injection h with h1 h2
      subst h1
      exact absurd ho (by intro hx; exact RunOutcome.noConfusion hx)
    · split at h
      · injection h with h1 h2
        subst h1
        exact absurd ho (by intro hx; exact RunOutcome.noConfusion hx)
      · split at h
        · injection h with h1 h2
          subst h1
          exact absurd ho (by intro hx; exact RunOutcome.noConfusion hx)
        · split at h
          · injection h with h1 h2
            subst h1
            injection ho with he
            exact absurd he (by intro hx; exact TaskError.noConfusion hx)
          · split at h
            · injection h with h1 h2
              subst h1
              injection ho with he
              exact absurd he (by intro hx; exact TaskError.noConfusion hx)
            · split at h
              · rename_i hph
                injection h with h1 h2
                subst h1
                injection ho with he hinfo hout
                subst hinfo
                rw [hph] at hsnf
                exact Bool.noConfusion hsnf
              · injection h with h1 h2
                subst h2
                rfl
            · have := ih _ o st' h info out ho hsnf
              exact this

theorem initProcess_fields (start : Json) (st : LoopState)
    (h : initProcess start = some st) :
    st.cancels = 0 ∧ st.agentIdx = 0 ∧ st.interactIdx = 0 ∧ st.sent = [] := by
  unfold initProcess at h
  split at h
  · exact Option.noConfusion h
  · rename_i st1 hadd
    have h1 := addPayloadMsgs_shape _ _ _ hadd
    have h2 := updateToolsSt_shape _ _ _ h
    refine ⟨?_, ?_, ?_, ?_⟩ <;> (rw [h2, h1]; try rfl)

/-- C2 (amended): after a session is started, an `INTERACT_FAILED`
result whose failing response body does not contain the session-not-found
phrase is always preceded by exactly one cancel, on the legacy path as
well as the FC path; a `NETWORK_ERROR` result is preceded by exactly one
cancel on the FC path — but NOT on the legacy path, where a network
failure during `/interact` returns without any cancel (see the
counterexample). -/
theorem C2_cancel_coupling (w : World) (idx lf : Nat) (start : Json) :
    (∀ info out, (runSampleFromStart w idx lf start).1 = .err .INTERACT_FAILED info out →
      sessionNotFound info = false → (runSampleFromStart w idx lf start).2.cancels = 1)
    ∧ (isLegacyShape start = false →
      ∀ info out, (runSampleFromStart w idx lf start).1 = .err .NETWORK_ERROR info out →
        (runSampleFromStart w idx lf start).2.cancels = 1) := by
  unfold runSampleFromStart
  split
  · exact ⟨fun info out ho => absurd ho (by intro hx; exact RunOutcome.noConfusion hx),
      fun _ info out ho => absurd ho (by intro hx; exact RunOutcome.noConfusion hx)⟩
  · rename_i st hip
    have hc0 := (initProcess_fields _ _ hip).1
    split
    · rename_i hleg
      refine ⟨?_, ?_⟩
      · intro info out ho hsnf
        have := legacyLoop_cancel_inv w idx lf st
          (legacyLoop w idx lf st).1 (legacyLoop w idx lf st).2
          Prod.mk.eta.symm info out ho hsnf
        rw [hc0] at this
        exact this
      · intro hfc
        rw [hleg] at hfc
        exact absurd hfc (by intro hx; exact Bool.noConfusion hx)
    · have hinv := fcLoop_cancel_inv w idx maxTurns st
      refine ⟨fun info out ho hsnf => ?_, fun _ info out ho => ?_⟩
      · have := hinv.1 info out ho hsnf
        rw [hc0] at this
        exact this
      · have := hinv.2 info out ho
        rw [hc0] at this
        exact this

/-- C2 counterexample: on the legacy path a network failure during
`/interact` returns `NETWORK_ERROR` with NO cancel issued, although the
session had been started (task.py lines 241-246 have no `_cancel()`
call, unlike the FC path's lines 532-534). -/
theorem C2_counterexample :
    (runSampleFromStart c2cw 0 5 c2cstart).1 = .err .NETWORK_ERROR "down"
      (some (Json.obj [("history", Json.arr []), ("status", Json.str "running")]))
    ∧ (runSampleFromStart c2cw 0 5 c2cstart).2.cancels = 0 := by
  refine ⟨?_, ?_⟩ <;> rfl

/-- C2 witness: an FC-path non-200 with an unrelated body yields
`INTERACT_FAILED` with exactly one cancel. -/
theorem C2_witness :
    (runSampleFromStart c2ww 0 1 c2wstart).2.cancels = 1 :=
  (C2_cancel_coupling c2ww 0 1 c2wstart).1 "boom" none (by decide) (by decide)

/-- C4 (amended): in the FC dialect only MALFORMED TOOL OUTPUT receives
the corrective re-prompt and the empty-final-answer fallback; an
inference error or a context-limit signal on the primary call
immediately ends the episode as `AGENT_FAILED` after a cancel — no
re-prompt is attempted and no fallback is used even when
`commit_final_answer` is registered (exceptions thrown during the
corrective retry itself are swallowed and lead to the fallback). -/
theorem C4_agent_failures (w : World) (idx : Nat) (st : LoopState)
    (hauto : autoBranchB st = false)
    (hwf : promptBuildCrash st.fcTools st.transcript.msgs = false) :
    (w.agent st.agentIdx = .ctxLimit →
      runTurn w idx st = .done (.err .AGENT_FAILED "Agent context limit" none)
        (bumpCancel { st with agentIdx := st.agentIdx + 1 }))
    ∧ (∀ e, w.agent st.agentIdx = .errA e →
      runTurn w idx st = .done (.err .AGENT_FAILED e none)
        (bumpCancel { st with agentIdx := st.agentIdx + 1 })) := by
  constructor
  · intro hctx
    simp [runTurn, agentPhase, hauto, hwf, hctx]
  · intro e herr
    simp [runTurn, agentPhase, hauto, hwf, herr]

/-- C4 counterexample: the agent's first inference call raises while
`commit_final_answer` is registered; the claim requires a corrective
re-prompt and then the empty final-answer fallback, but the code
returns `AGENT_FAILED` at once (one inference call consumed, one
cancel). -/
theorem C4_counterexample :
    (runSampleFromStart c4cw 0 1 c4cstart).1 = .err .AGENT_FAILED "boom" none
    ∧ (runSampleFromStart c4cw 0 1 c4cstart).2.agentIdx = 1
    ∧ (runSampleFromStart c4cw 0 1 c4cstart).2.cancels = 1
    ∧ Json.str "commit_final_answer" ∈ (runSampleFromStart c4cw 0 1 c4cstart).2.toolNames := by
  refine ⟨rfl, rfl, rfl, ?_⟩
  decide

/-- C4 witness: both primary-failure kinds at a concrete state with the
fallback tool registered. -/
theorem C4_witness :
    runTurn c4wa 0 c4wst = .done (.err .AGENT_FAILED "Agent context limit" none)
      (bumpCancel { c4wst with agentIdx := c4wst.agentIdx + 1 })
    ∧ runTurn c4wb 0 c4wst = .done (.err .AGENT_FAILED "kaput" none)
      (bumpCancel { c4wst with agentIdx := c4wst.agentIdx + 1 }) :=
  ⟨(C4_agent_failures c4wa 0 c4wst (by decide) (by decide)).1 rfl,
   (C4_agent_failures c4wb 0 c4wst (by decide) (by decide)).2 "kaput" rfl⟩

/-- C8: when the agent's output fails normalization, the corrective
retry also fails, and `commit_final_answer` is registered, the turn
submits the default empty answer to the controller (the batch sent to
`/interact` is exactly the synthesized commit message) instead of
failing the episode with an agent error. -/
theorem C8_double_failure_fallback (w : World) (idx : Nat) (st : LoopState)
    (c : String)
    (hauto : autoBranchB st = false)
    (hwf : promptBuildCrash st.fcTools st.transcript.msgs = false)
    (h1 : w.agent st.agentIdx = .okA c)
    (h2 : normalizeOpt st.toolNames (w.firstJson c) = none)
    (h3 : retryParse w st.toolNames st.agentIdx = none)
    (hc : Json.str "commit_final_answer" ∈ st.toolNames) :
    (runTurn w idx st).state.sent = st.sent ++ [[commitMsg]]
    ∧ (runTurn w idx st).agentFailedB = false := by
  have hphase : agentPhase w st.toolNames st.agentIdx = .msgA commitMsg false 2 := by
    simp [agentPhase, h1, h2, h3, hc]
  have hrt : runTurn w idx st = sendAndFold w idx
      { st with agentIdx := st.agentIdx + 2,
                autoCommitNext := st.autoCommitNext || false } commitMsg := by
    simp [runTurn, hauto, hwf, hphase]
  rw [hrt]
  have hf := sendAndFold_fields w idx
    { st with agentIdx := st.agentIdx + 2,
              autoCommitNext := st.autoCommitNext || false } commitMsg
  exact ⟨hf.1, hf.2.2.2⟩

/-- C8 witness: garbage agent output twice with the fallback tool
registered sends the default commit batch. -/
theorem C8_witness :
    (runTurn c8w 0 c8st).state.sent = c8st.sent ++ [[commitMsg]]
    ∧ (runTurn c8w 0 c8st).agentFailedB = false :=
  C8_double_failure_fallback c8w 0 c8st "garbage" (by decide) (by decide) rfl rfl rfl
    (by decide)

theorem normalize_autoCommit (tns : List Json) (j : Json) (r : NormResult)
    (h : normalizeToolPayload tns j = some r) :
    r.autoCommit = shouldAutoCommit r.name r.args := by
  cases j with
  | obj fs =>
    simp only [normalizeToolPayload] at h
    cases hc : normalizeCore tns fs with
    | none => rw [hc] at h; exact Option.noConfusion h
    | some p =>
      rw [hc, Option.map_some'] at h
      injection h with h
      subst h
      rfl
  | null => exact Option.noConfusion h
  | bool b => exact Option.noConfusion h
  | num n => exact Option.noConfusion h
  | str s => exact Option.noConfusion h
  | arr xs => exact Option.noConfusion h

/-- C5 (amended): a turn whose normalized action is an `execute_sql`
call with a mutating query sets the pending auto-commit flag; the
immediately following turn then sends the synthesized
`commit_final_answer` call with `answers = [""]` WITHOUT consulting the
agent — but only PROVIDED a `commit_final_answer` tool is registered at
that point: without one the flag has no effect and the next turn
consults the agent normally (see the counterexample). -/
theorem C5_auto_commit :
    (∀ (w : World) (idx : Nat) (st st' : LoopState) (c : String) (r : NormResult),
      autoBranchB st = false →
      promptBuildCrash st.fcTools st.transcript.msgs = false →
      w.agent st.agentIdx = .okA c →
      normalizeOpt st.toolNames (w.firstJson c) = some r →
      r.name = "execute_sql" →
      mutatingQ r.args = true →
      runTurn w idx st = .next st' →
      st'.autoCommitNext = true)
    ∧ (∀ (w : World) (idx : Nat) (st : LoopState),
      st.autoCommitNext = true →
      Json.str "commit_final_answer" ∈ st.toolNames →
      (runTurn w idx st).state.agentIdx = st.agentIdx
      ∧ (runTurn w idx st).state.sent = st.sent ++ [[commitMsg]]) := by
  constructor
  · intro w idx st st' c r hauto hwf h1 h2 hname hmut hnext
    have hr : r.autoCommit = true := by
      cases hfj : w.firstJson c with
      | none => rw [hfj] at h2; exact Option.noConfusion h2
      | some jx =>
        rw [hfj] at h2
        have hra := normalize_autoCommit st.toolNames jx r h2
        rw [hra, hname]
        simp [shouldAutoCommit, hmut]
    have hphase : agentPhase w st.toolNames st.agentIdx
        = .msgA (mkToolCallMsg r) r.autoCommit 1 := by
      simp [agentPhase, h1, h2]
    have hrt : runTurn w idx st = sendAndFold w idx
        { st with agentIdx := st.agentIdx + 1,
                  autoCommitNext := st.autoCommitNext || r.autoCommit }
        (mkToolCallMsg r) := by
      simp [runTurn, hauto, hwf, hphase]
    rw [hrt] at hnext
    have := (sendAndFold_next_shape _ _ _ _ _ hnext).2
    rw [this, hr, Bool.or_true]
  · intro w idx st h1 h2
    have hb : autoBranchB st = true := by
      unfold autoBranchB
      rw [h1, decide_eq_true h2]
      rfl
    have hrt : runTurn w idx st = sendAndFold w idx
        { st with autoCommitNext := false } commitMsg := by
      simp [runTurn, hb]
    rw [hrt]
    have hf := sendAndFold_fields w idx { st with autoCommitNext := false } commitMsg
    exact ⟨hf.2.1, hf.1⟩

set_option maxRecDepth 4000 in
/-- C5 counterexample: turn 1 normalizes to a mutating `execute_sql`
call (the flag is set), but the registry lacks `commit_final_answer`;
turn 2 therefore consults the agent again (its call counter advances)
and sends an agent-derived `execute_sql` batch rather than a
synthesized commit call, contradicting the claim as stated. -/
theorem C5_counterexample :
    (initProcess c5cstart).isSome = true
    ∧ ((normalizeOpt c5init.toolNames (c5cw.firstJson "M")).map
        (fun r => (r.name, r.autoCommit))) = some ("execute_sql", true)
    ∧ (runTurn c5cw 0 c5init).isNextB = true
    ∧ c5s1.autoCommitNext = true
    ∧ ¬ (Json.str "commit_final_answer" ∈ c5s1.toolNames)
    ∧ (runTurn c5cw 0 c5s1).isNextB = true
    ∧ c5s2.agentIdx = c5s1.agentIdx + 1
    ∧ ¬ (c5s2.sent.getD 1 [] = [commitMsg]) := by
  refine ⟨rfl, rfl, rfl, rfl, ?_, rfl, rfl, ?_⟩ <;> decide

set_option maxRecDepth 4000 in
/-- C5 witness: with the flag pending and the tool registered, the turn
sends the synthesized commit batch without an agent call. -/
theorem C5_witness :
    ((runTurn c5cw 0 c5bst).state.agentIdx = c5bst.agentIdx
      ∧ (runTurn c5cw 0 c5bst).state.sent = c5bst.sent ++ [[commitMsg]])
    ∧ c5s1.autoCommitNext = true :=
  ⟨C5_auto_commit.2 c5cw 0 c5bst rfl (by decide),
   C5_auto_commit.1 c5cw 0 c5init c5s1 "M"
     ⟨"execute_sql", [("query", Json.str "UPDATE t SET x=1")], Json.str "", true⟩
     (by decide) (by decide) rfl (by decide) rfl (by decide) (by decide)⟩

theorem maybeFinish_nofin (res : Json) (conv : List Json) (idx : Nat)
    (h : notFinishingB res = true) : maybeFinish res conv idx = .nofin := by
  cases res with
  | obj fs =>
    simp only [notFinishingB, Bool.and_eq_true, Bool.or_eq_true,
      Bool.not_eq_true'] at h
    obtain ⟨⟨hs, hf⟩, ho⟩ := h
    have hs2 : ((dget fs "status").truthy
        && !(dget fs "status" == Json.str "running")) = false := by
      rcases hs with hs | hs
      · simp [Json.truthy, hs]
      · simp [hs]
    simp [maybeFinish, hs2, hf, ho]
  | null => rfl
  | bool b => rfl
  | num n => rfl
  | str s => rfl
  | arr xs => rfl

theorem runningPayloadB_notFinishing (p : Json) (h : runningPayloadB p = true) :
    notFinishingB p = true := by
  cases p with
  | obj fs =>
    simp only [runningPayloadB, Bool.and_eq_true] at h
    obtain ⟨⟨⟨hs, hf⟩, ho⟩, hw⟩ := h
    simp [notFinishingB, hs, hf, ho]
  | null => rfl
  | bool b => rfl
  | num n => rfl
  | str s => rfl
  | arr xs => rfl

theorem runningPayloadB_wf (p : Json) (h : runningPayloadB p = true) :
    wfPayloadB p = true := by
  cases p with
  | obj fs =>
    simp only [runningPayloadB, Bool.and_eq_true] at h
    exact h.2
  | null => exact Bool.noConfusion h
  | bool b => exact Bool.noConfusion h
  | num n => exact Bool.noConfusion h
  | str s => exact Bool.noConfusion h
  | arr xs => exact Bool.noConfusion h

theorem addOne_allObj (t : Transcript) (m : Json)
    (h1 : convWfB t.msgs = true) (h2 : m.isObjB = true) :
    convWfB (t.addOne m).msgs = true := by
  simp only [Transcript.addOne]
  split
  · exact h1
  · simp only [convWfB, List.all_append, List.all_cons, List.all_nil] at *
    simp [h1, h2]

theorem addMany_allObj (ms : List Json) :
    ∀ (t : Transcript), convWfB t.msgs = true → ms.all Json.isObjB = true →
      convWfB (t.addMany ms).msgs = true := by
  induction ms with
  | nil => intro t h1 h2; exact h1
  | cons m ms ih =>
    intro t h1 h2
    simp only [List.all_cons, Bool.and_eq_true] at h2
    exact ih (t.addOne m) (addOne_allObj t m h1 h2.1) h2.2

theorem addField_ok (t : Transcript) (v : Json) (hv : wfMessagesVal v = true)
    (hc : convWfB t.msgs = true) :
    ∃ t', t.addField v = some t' ∧ convWfB t'.msgs = true := by
  by_cases hfal : v.falsy = true
  · exact ⟨t, by simp [Transcript.addField, hfal], hc⟩
  · simp only [Bool.not_eq_true] at hfal
    simp only [wfMessagesVal, hfal, Bool.false_or] at hv
    cases v with
    | arr xs =>
      refine ⟨t.addMany xs, ?_, addMany_allObj xs t hc hv⟩
      simp [Transcript.addField, hfal]
    | null => exact Bool.noConfusion hv
    | bool b => exact Bool.noConfusion hv
    | num n => exact Bool.noConfusion hv
    | str s => exact Bool.noConfusion hv
    | obj fs => exact Bool.noConfusion hv

theorem addPayloadMsgs_ok (st : LoopState) (p : Json)
    (hp : wfPayloadB p = true) (hc : convWfB st.transcript.msgs = true) :
    ∃ st', addPayloadMsgs st p = some st'
      ∧ convWfB st'.transcript.msgs = true := by
  cases p with
  | obj fs =>
    simp only [wfPayloadB, Bool.and_eq_true] at hp
    obtain ⟨t', haf, hwf'⟩ :=
      addField_ok st.transcript ((jget fs "messages").getD (Json.arr [])) hp.1 hc
    refine ⟨{ st with transcript := t' }, ?_, hwf'⟩
    simp [addPayloadMsgs, haf]
  | null => exact ⟨st, rfl, hc⟩
  | bool b => exact ⟨st, rfl, hc⟩
  | num n => exact ⟨st, rfl, hc⟩
  | str s => exact ⟨st, rfl, hc⟩
  | arr xs => exact ⟨st, rfl, hc⟩

theorem pyGet_some (fs : List (String × Json)) (k : String) (v : Json)
    (h : pyGet fs k = some v) : jget fs k = some v := by
  unfold pyGet at h
  split at h
  · exact Option.noConfusion h
  · exact h

theorem all_imp_any_not {α : Type} (l : List α) (p : α → Bool)
    (h : l.all p = true) : l.any (fun x => !p x) = false := by
  cases hany : l.any (fun x => !p x) with
  | false => rfl
  | true =>
    obtain ⟨x, hx, hpx⟩ := List.any_eq_true.mp hany
    rw [List.all_eq_true] at h
    rw [h x hx] at hpx
    exact Bool.noConfusion hpx

theorem toolsWfB_no_crash (ts : List Json) (h : toolsWfB ts = true) :
    ts.any toolEntryCrash = false := by
  cases hany : ts.any toolEntryCrash with
  | false => rfl
  | true =>
    obtain ⟨x, hx, hcx⟩ := List.any_eq_true.mp hany
    simp only [toolsWfB, List.all_eq_true, Bool.and_eq_true] at h
    have := (h x hx).1
    rw [hcx] at this
    exact Bool.noConfusion this

theorem toolsWfB_names (ts : List Json) (h : toolsWfB ts = true) :
    (toolNamesOf ts).any (fun n =>
      match n with
      | .str _ => false
      | _ => true) = false := by
  cases hany : (toolNamesOf ts).any (fun n =>
      match n with
      | .str _ => false
      | _ => true) with
  | false => rfl
  | true =>
    obtain ⟨n, hn, hnp⟩ := List.any_eq_true.mp hany
    simp only [toolNamesOf, List.mem_filter, List.mem_map] at hn
    obtain ⟨⟨t, hts, hname⟩, htr⟩ := hn
    simp only [toolsWfB, List.all_eq_true, Bool.and_eq_true] at h
    have h2 := (h t hts).2
    rw [hname] at h2
    cases n with
    | str s => exact Bool.noConfusion hnp
    | null => simp [Json.truthy, Json.falsy] at htr
    | bool b =>
      simp only [Json.falsy] at h2
      simp [Json.truthy, Json.falsy, h2] at htr
    | num m =>
      simp only [Json.falsy] at h2
      simp [Json.truthy, Json.falsy, h2] at htr
    | arr xs =>
      simp only [Json.falsy] at h2
      simp [Json.truthy, Json.falsy, h2] at htr
    | obj fs =>
      simp only [Json.falsy] at h2
      simp [Json.truthy, Json.falsy, h2] at htr

theorem stWf_prompt (st : LoopState) (h : stWfB st = true) :
    promptBuildCrash st.fcTools st.transcript.msgs = false := by
  simp only [stWfB, Bool.and_eq_true] at h
  obtain ⟨ht, hc⟩ := h
  unfold promptBuildCrash
  rw [toolsWfB_no_crash _ ht, toolsWfB_names _ ht]
  unfold convWfB at hc
  rw [all_imp_any_not _ _ hc]
  rfl

theorem updateToolsSt_ok (st : LoopState) (p : Json)
    (hp : wfPayloadB p = true) (ht : toolsWfB st.fcTools = true) :
    ∃ st', updateToolsSt st p = some st' ∧ toolsWfB st'.fcTools = true := by
  cases p with
  | obj fs =>
    simp only [wfPayloadB, Bool.and_eq_true] at hp
    cases hpg : pyGet fs "tools" with
    | none => exact ⟨st, by simp [updateToolsSt, hpg], ht⟩
    | some v =>
      cases v with
      | arr ts =>
        have hjg := pyGet_some fs "tools" _ hpg
        have hwt : toolsWfB ts = true := by
          have := hp.2
          unfold dget at this
          rw [hjg] at this
          exact this
        refine ⟨{ st with fcTools := ts, toolNames := toolNamesOf ts }, ?_, hwt⟩
        simp [updateToolsSt, hpg, toolsWfB_no_crash ts hwt]
      | null => exact ⟨st, by simp [updateToolsSt, hpg], ht⟩
      | bool b => exact ⟨st, by simp [updateToolsSt, hpg], ht⟩
      | num n => exact ⟨st, by simp [updateToolsSt, hpg], ht⟩
      | str s => exact ⟨st, by simp [updateToolsSt, hpg], ht⟩
      | obj gs => exact ⟨st, by simp [updateToolsSt, hpg], ht⟩
  | null => exact ⟨st, rfl, ht⟩
  | bool b => exact ⟨st, rfl, ht⟩
  | num n => exact ⟨st, rfl, ht⟩
  | str s => exact ⟨st, rfl, ht⟩
  | arr xs => exact ⟨st, rfl, ht⟩

theorem agentPhase_ok (w : World) (tns : List Json) (aIdx : Nat) (c : String)
    (h : w.agent aIdx = .okA c) :
    ∃ m auto used, agentPhase w tns aIdx = .msgA m auto used
      ∧ m.isObjB = true := by
  cases hn : normalizeOpt tns (w.firstJson c) with
  | some r =>
    exact ⟨mkToolCallMsg r, r.autoCommit, 1, by simp [agentPhase, h, hn], rfl⟩
  | none =>
    cases hr : retryParse w tns aIdx with
    | some r =>
      exact ⟨mkToolCallMsg r, r.autoCommit, 2, by simp [agentPhase, h, hn, hr], rfl⟩
    | none =>
      by_cases hc : Json.str "commit_final_answer" ∈ tns
      · exact ⟨commitMsg, false, 2, by simp [agentPhase, h, hn, hr, hc], rfl⟩
      · exact ⟨rawAssistantMsg c, false, 2, by simp [agentPhase, h, hn, hr, hc], rfl⟩

theorem sendAndFold_good (w : World) (idx : Nat) (st0 : LoopState) (msg : Json)
    (p : Json) (hmsg : msg.isObjB = true)
    (hconv : convWfB st0.transcript.msgs = true)
    (htools : toolsWfB st0.fcTools = true)
    (hint : w.interact st0.interactIdx = .ok p)
    (hp : runningPayloadB p = true) :
    ∃ st', sendAndFold w idx st0 msg = .next st'
      ∧ st'.interactIdx = st0.interactIdx + 1
      ∧ st'.cancels = st0.cancels
      ∧ st'.latest = p
      ∧ convWfB st'.transcript.msgs = true
      ∧ toolsWfB st'.fcTools = true := by
  have hconv1 : convWfB (st0.transcript.addMany [msg]).msgs = true := by
    refine addMany_allObj [msg] st0.transcript hconv ?_
    simp [hmsg]
  obtain ⟨st4, hadd, hconv4⟩ := addPayloadMsgs_ok
    { st0 with
        transcript := st0.transcript.addMany [msg],
        sent := st0.sent ++ [[msg]],
        interactIdx := st0.interactIdx + 1,
        latest := p }
    p (runningPayloadB_wf p hp) hconv1
  have hsh4 := addPayloadMsgs_shape _ _ _ hadd
  obtain ⟨st5, hupd, htools5⟩ := updateToolsSt_ok st4 p (runningPayloadB_wf p hp)
    (by rw [hsh4]; exact htools)
  have hsh5 := updateToolsSt_shape _ _ _ hupd
  have hmf : maybeFinish p st5.transcript.msgs idx = .nofin :=
    maybeFinish_nofin p _ idx (runningPayloadB_notFinishing p hp)
  refine ⟨st5, ?_, ?_, ?_, ?_, ?_, htools5⟩
  · simp only [sendAndFold, hint, hadd, hupd, hmf]
  · rw [hsh5, hsh4]
  · rw [hsh5, hsh4]
  · rw [hsh5, hsh4]
  · rw [hsh5]
    exact hconv4

theorem runTurn_good (w : World) (idx : Nat) (st : LoopState) (p : Json)
    (hwf : stWfB st = true)
    (hagent : ∀ i, ∃ c, w.agent i = .okA c)
    (hint : w.interact st.interactIdx = .ok p)
    (hp : runningPayloadB p = true) :
    ∃ st', runTurn w idx st = .next st'
      ∧ st'.interactIdx = st.interactIdx + 1
      ∧ st'.cancels = st.cancels
      ∧ st'.latest = p
      ∧ stWfB st' = true := by
  have hts : toolsWfB st.fcTools = true := by
    simp only [stWfB, Bool.and_eq_true] at hwf
    exact hwf.1
  have hcv : convWfB st.transcript.msgs = true := by
    simp only [stWfB, Bool.and_eq_true] at hwf
    exact hwf.2
  by_cases hb : autoBranchB st = true
  · obtain ⟨st', hs, h1, h2, h3, h4, h5⟩ := sendAndFold_good w idx
      { st with autoCommitNext := false } commitMsg p rfl hcv hts hint hp
    exact ⟨st', by simp [runTurn, hb, hs], h1, h2, h3, by simp [stWfB, h4, h5]⟩
  · simp only [Bool.not_eq_true] at hb
    have hpc := stWf_prompt st hwf
    obtain ⟨c, hac⟩ := hagent st.agentIdx
    obtain ⟨m, auto, used, hph, hmobj⟩ := agentPhase_ok w st.toolNames st.agentIdx c hac
    obtain ⟨st', hs, h1, h2, h3, h4, h5⟩ := sendAndFold_good w idx
      { st with agentIdx := st.agentIdx + used,
                autoCommitNext := st.autoCommitNext || auto } m p hmobj hcv hts hint hp
    exact ⟨st', by simp [runTurn, hb, hpc, hph, hs], h1, h2, h3,
      by simp [stWfB, h4, h5]⟩

theorem sendAndFold_httpErr (w : World) (idx : Nat) (st0 : LoopState)
    (msg : Json) (body : String)
    (hint : w.interact st0.interactIdx = .httpErr body)
    (hnf : notFinishingB st0.latest = true) :
    ∃ st', sendAndFold w idx st0 msg = .done (.err .INTERACT_FAILED body none) st'
      ∧ st'.cancels = st0.cancels + (if sessionNotFound body then 0 else 1) := by
  have hmf : ∀ conv, maybeFinish st0.latest conv idx = MF.nofin :=
    fun conv => maybeFinish_nofin _ conv idx hnf
  cases hsnf : sessionNotFound body with
  | true =>
    refine ⟨{ st0 with
        transcript := st0.transcript.addMany [msg],
        sent := st0.sent ++ [[msg]],
        interactIdx := st0.interactIdx + 1 }, ?_, ?_⟩
    · simp [sendAndFold, hint, hsnf, hmf]
    · simp [hsnf]
  | false =>
    refine ⟨bumpCancel { st0 with
        transcript := st0.transcript.addMany [msg],
        sent := st0.sent ++ [[msg]],
        interactIdx := st0.interactIdx + 1 }, ?_, ?_⟩
    · simp [sendAndFold, hint, hsnf, hmf, bumpCancel]
    · simp [hsnf, bumpCancel]

theorem runTurn_fail (w : World) (idx : Nat) (st : LoopState) (body : String)
    (hwf : stWfB st = true)
    (hagent : ∀ i, ∃ c, w.agent i = .okA c)
    (hint : w.interact st.interactIdx = .httpErr body)
    (hnf : notFinishingB st.latest = true) :
    ∃ st', runTurn w idx st = .done (.err .INTERACT_FAILED body none) st'
      ∧ st'.cancels = st.cancels + (if sessionNotFound body then 0 else 1) := by
  by_cases hb : autoBranchB st = true
  · obtain ⟨st', hs, hcx⟩ := sendAndFold_httpErr w idx
      { st with autoCommitNext := false } commitMsg body hint hnf
    exact ⟨st', by simp [runTurn, hb, hs], hcx⟩
  · simp only [Bool.not_eq_true] at hb
    have hpc := stWf_prompt st hwf
    obtain ⟨c, hac⟩ := hagent st.agentIdx
    obtain ⟨m, auto, used, hph, hmobj⟩ := agentPhase_ok w st.toolNames st.agentIdx c hac
    obtain ⟨st', hs, hcx⟩ := sendAndFold_httpErr w idx
      { st with agentIdx := st.agentIdx + used,
                autoCommitNext := st.autoCommitNext || auto } m body hint hnf
    exact ⟨st', by simp [runTurn, hb, hpc, hph, hs], hcx⟩

theorem initProcess_good (start : Json) (h : startFcWfB start = true) :
    ∃ st, initProcess start = some st ∧ stWfB st = true ∧ st.cancels = 0
      ∧ st.interactIdx = 0 ∧ st.latest = start := by
  simp only [startFcWfB, Bool.and_eq_true] at h
  obtain ⟨hwp, hleg⟩ := h
  obtain ⟨st1, hadd, hcv1⟩ := addPayloadMsgs_ok (LoopState.init start) start hwp rfl
  have hsh1 := addPayloadMsgs_shape _ _ _ hadd
  obtain ⟨st2, hupd, hts2⟩ := updateToolsSt_ok st1 start hwp (by rw [hsh1]; rfl)
  have hsh2 := updateToolsSt_shape _ _ _ hupd
  refine ⟨st2, ?_, ?_, ?_, ?_, ?_⟩
  · simp [initProcess, hadd, hupd]
  · have hcv2 : convWfB st2.transcript.msgs = true := by
      rw [hsh2]
      exact hcv1
    simp [stWfB, hts2, hcv2]
  · rw [hsh2, hsh1]
    rfl
  · rw [hsh2, hsh1]
    rfl
  · rw [hsh2, hsh1]
    rfl

theorem fcLoop_exhaust (w : World) (idx : Nat)
    (hagent : ∀ i, ∃ c, w.agent i = .okA c)
    (hint : ∀ i, ∃ p, w.interact i = .ok p ∧ runningPayloadB p = true) :
    ∀ (fuel : Nat) (st : LoopState), stWfB st = true →
      ∃ stf, fcLoop w idx fuel st
          = (.err .INTERACT_FAILED
              (exceededMsg stf.latest stf.transcript.msgs.length) none, stf)
        ∧ stf.cancels = st.cancels + 1
        ∧ stf.interactIdx = st.interactIdx + fuel := by
  intro fuel
  induction fuel with
  | zero =>
    intro st hwf
    exact ⟨bumpCancel st, rfl, rfl, rfl⟩
  | succ fuel ih =>
    intro st hwf
    obtain ⟨p, hi, hp⟩ := hint st.interactIdx
    obtain ⟨st', hrt, h1, h2, h3, h4⟩ := runTurn_good w idx st p hwf hagent hi hp
    obtain ⟨stf, hfc, hc1, hc2⟩ := ih st' h4
    refine ⟨stf, ?_, ?_, ?_⟩
    · simp [fcLoop, hrt, hfc]
    · rw [hc1, h2]
    · rw [hc2, h1]
      omega

/-- C1: against a controller that answers every `/interact` with 200 and
a well-formed payload whose status is the literal `"running"` (no
terminal status, no finish flag, no legacy `output`), and an agent whose
inference calls return (any) content, `run_sample` in the FC dialect
performs exactly 200 interact round trips, then returns
`INTERACT_FAILED` whose diagnostic names the 200-turn budget and the
number of collected transcript messages, having issued exactly one
cancel. -/
theorem C1_turn_budget (w : World) (idx lf : Nat) (start : Json)
    (hstart : startFcWfB start = true)
    (hint : ∀ i, ∃ p, w.interact i = .ok p ∧ runningPayloadB p = true)
    (hagent : ∀ i, ∃ c, w.agent i = .okA c) :
    (runSampleFromStart w idx lf start).1
        = .err .INTERACT_FAILED
          (exceededMsg (runSampleFromStart w idx lf start).2.latest
            (runSampleFromStart w idx lf start).2.transcript.msgs.length) none
    ∧ (runSampleFromStart w idx lf start).2.cancels = 1
    ∧ (runSampleFromStart w idx lf start).2.interactIdx = 200 := by
  obtain ⟨st0, hip, hwf, hc0, hi0, _⟩ := initProcess_good start hstart
  have hleg : isLegacyShape start = false := by
    simp only [startFcWfB, Bool.and_eq_true] at hstart
    simpa using hstart.2
  have hrun : runSampleFromStart w idx lf start = fcLoop w idx maxTurns st0 := by
    simp [runSampleFromStart, hip, hleg]
  obtain ⟨stf, hfc, hcf, hif⟩ := fcLoop_exhaust w idx hagent hint maxTurns st0 hwf
  rw [hrun, hfc]
  refine ⟨rfl, ?_, ?_⟩
  · simp [hcf, hc0]
  · simp [hif, hi0, maxTurns]

/-- C1 witness: the constant 200-running controller with a silent
agent. -/
theorem C1_witness :
    (runSampleFromStart c1w 0 1 c1start).1
        = .err .INTERACT_FAILED
          (exceededMsg (runSampleFromStart c1w 0 1 c1start).2.latest
            (runSampleFromStart c1w 0 1 c1start).2.transcript.msgs.length) none
    ∧ (runSampleFromStart c1w 0 1 c1start).2.cancels = 1
    ∧ (runSampleFromStart c1w 0 1 c1start).2.interactIdx = 200 :=
  C1_turn_budget c1w 0 1 c1start (by decide)
    (fun i => ⟨runningP, rfl, by decide⟩) (fun i => ⟨"", rfl⟩)

theorem fcLoop_fail (w : World) (idx : Nat)
    (hagent : ∀ i, ∃ c, w.agent i = .okA c) :
    ∀ (j fuel : Nat) (st : LoopState) (body : String),
      j < fuel →
      (∀ i, i < j → ∃ p, w.interact (st.interactIdx + i) = .ok p
        ∧ runningPayloadB p = true) →
      w.interact (st.interactIdx + j) = .httpErr body →
      stWfB st = true → notFinishingB st.latest = true →
      ∃ stf, fcLoop w idx fuel st = (.err .INTERACT_FAILED body none, stf)
        ∧ stf.cancels = st.cancels + (if sessionNotFound body then 0 else 1) := by
  intro j
  induction j with
  | zero =>
    intro fuel st body hj hpre hfail hwf hnf
    cases fuel with
    | zero => omega
    | succ fuel =>
      obtain ⟨st', hrt, hcx⟩ := runTurn_fail w idx st body hwf hagent
        (by simpa using hfail) hnf
      exact ⟨st', by simp [fcLoop, hrt], hcx⟩
  | succ j ih =>
    intro fuel st body hj hpre hfail hwf hnf
    cases fuel with
    | zero => omega
    | succ fuel =>
      obtain ⟨p, hi, hp⟩ := hpre 0 (Nat.succ_pos j)
      obtain ⟨st', hrt, h1, h2, h3, h4⟩ := runTurn_good w idx st p hwf hagent
        (by simpa using hi) hp
      have hnf' : notFinishingB st'.latest = true := by
        rw [h3]
        exact runningPayloadB_notFinishing p hp
      have hpre' : ∀ i, i < j → ∃ q, w.interact (st'.interactIdx + i) = .ok q
          ∧ runningPayloadB q = true := by
        intro i hi2
        have hidx : st'.interactIdx + i = st.interactIdx + (i + 1) := by
          rw [h1]
          omega
        rw [hidx]
        exact hpre (i + 1) (by omega)
      have hfail' : w.interact (st'.interactIdx + j) = .httpErr body := by
        have hidx : st'.interactIdx + j = st.interactIdx + (j + 1) := by
          rw [h1]
          omega
        rw [hidx]
        exact hfail
      obtain ⟨stf, hfc, hcx⟩ := ih fuel st' body (by omega) hpre' hfail' h4 hnf'
      refine ⟨stf, by simp [fcLoop, hrt, hfc], ?_⟩
      rw [hcx, h2]

/-- C7 (amended): when an `/interact` call of the FC loop returns a
non-200 response at a point where the most recent successful payload
(possibly the start payload, which is never itself checked for
completion) does NOT indicate completion, `run_sample` returns
`INTERACT_FAILED` carrying the raw response body, and a cancel is
issued exactly once iff the body lacks the session-not-found phrase.
If the retained payload DOES indicate completion, a success outcome is
returned instead of `INTERACT_FAILED` (see the counterexample); the
cancel behaviour is unchanged. -/
theorem C7_interact_failure (w : World) (idx lf : Nat) (start : Json)
    (j : Nat) (body : String)
    (hstart : startFcWfB start = true)
    (hnf : notFinishingB start = true)
    (hj : j < maxTurns)
    (hpre : ∀ i, i < j → ∃ p, w.interact i = .ok p ∧ runningPayloadB p = true)
    (hfail : w.interact j = .httpErr body)
    (hagent : ∀ i, ∃ c, w.agent i = .okA c) :
    (runSampleFromStart w idx lf start).1 = .err .INTERACT_FAILED body none
    ∧ (runSampleFromStart w idx lf start).2.cancels
        = (if sessionNotFound body then 0 else 1) := by
  obtain ⟨st0, hip, hwf, hc0, hi0, hl0⟩ := initProcess_good start hstart
  have hleg : isLegacyShape start = false := by
    simp only [startFcWfB, Bool.and_eq_true] at hstart
    simpa using hstart.2
  have hrun : runSampleFromStart w idx lf start = fcLoop w idx maxTurns st0 := by
    simp [runSampleFromStart, hip, hleg]
  obtain ⟨stf, hfc, hcx⟩ := fcLoop_fail w idx hagent j maxTurns st0 body hj
    (fun i hi => by rw [hi0, Nat.zero_add]; exact hpre i hi)
    (by rw [hi0, Nat.zero_add]; exact hfail)
    hwf (by rw [hl0]; exact hnf)
  rw [hrun, hfc]
  refine ⟨rfl, ?_⟩
  simp [hcx, hc0]

/-- C7 counterexample: the start payload already carries the terminal
status `completed`; the first `/interact` answers non-200 with an
unrelated body, one cancel is issued — but `run_sample` returns a
SUCCESS outcome rebuilt from the start payload (task.py lines 539-541)
rather than the `INTERACT_FAILED` required by the claim. -/
theorem C7_counterexample :
    c7cw.interact 0 = .httpErr "boom"
    ∧ (runSampleFromStart c7cw 7 1 c7cstart).1
        = .ok (.typed ⟨7, .completed,
            Json.obj [("status", Json.str "completed"),
              ("messages", Json.arr [rawAssistantMsg "x"])],
            [⟨.agent, "x"⟩]⟩)
    ∧ (runSampleFromStart c7cw 7 1 c7cstart).2.cancels = 1 := by
  refine ⟨rfl, ?_, ?_⟩ <;> rfl

/-- C7 witness: running start payload, non-200 with an unrelated body on
turn 1: result `INTERACT_FAILED` with the raw body, one cancel. -/
theorem C7_witness :
    (runSampleFromStart c7ww 0 1 c7wstart).1 = .err .INTERACT_FAILED "gone wrong" none
    ∧ (runSampleFromStart c7ww 0 1 c7wstart).2.cancels = 1 := by
  have h := C7_interact_failure c7ww 0 1 c7wstart 0 "gone wrong" (by decide) (by decide)
    (by decide) (fun i hi => absurd hi (Nat.not_lt_zero i)) rfl (fun i => ⟨"x", rfl⟩)
  simpa using h
